import Mathlib

/-!
# spif_remote.h : configuration of spif from a SpiNNaker core

A shallow embedding of `src/test_code/include/spif_remote.h`.

* `uint` values are natural numbers; every C addition and multiplication on
  them is taken modulo `2^32` (`add32`, `mul32`, `shl32`).
* The functions of the SpiNNaker run-time that the header calls
  (`spin1_send_mc_packet`, `rtr_alloc`, `rtr_mc_set`, `spin1_get_core_id`)
  are not part of the repository.  They are the fields of `Env`: arbitrary
  deterministic functions of a hidden state `σ`.
* The register numbers of `spif.h` are not part of the sources either; they
  are the fields of `SpifRegs`.
* Every external call is appended to the `log` of the `World`, so that the
  order and the arguments of the calls can be stated.
* `while (!spin1_send_mc_packet (...));` may spin for ever.  The loop is run
  with a bound `fuel` on its number of iterations; `Run.done` says the loop
  was left, `Run.spinning` that the bound was reached first.  Both carry the
  world reached, so that the attempts of an unfinished loop can be inspected.
-/

namespace Spif

/-! ## Machine arithmetic -/

/-- Addition of two `uint`. -/
def add32 (a b : Nat) : Nat := (a + b) % 2 ^ 32

/-- Multiplication of two `uint`. -/
def mul32 (a b : Nat) : Nat := (a * b) % 2 ^ 32

/-- Left shift, keeping the low 32 bits of the result.  C defines `1 << n`
on a 32-bit `int` only for `n < 31`, and there the function agrees with it.
For larger `n` the C expression is undefined and the value of the function
(`0` from `n = 32` on) stands for nothing the code does: none of the claims
below relies on it. -/
def shl32 (a n : Nat) : Nat := (a <<< n) % 2 ^ 32

/-! ## Constants of the header -/

def PER_KEY : Nat := 0xfffe0000
def PER_MSK : Nat := 0xffff0000
def LCFG_KEY : Nat := 0xfffffe00
def LCFG_MSK : Nat := 0xffffff00
def RCFG_KEY : Nat := 0xffffff00
def RCFG_MSK : Nat := 0xffffff00
def RPLY_KEY : Nat := 0xfffffd00
def RPLY_MSK : Nat := 0xffffff00

def LCFG_PKEY : Nat := 2
def LCFG_PMSK : Nat := 3
def LCFG_LCKEY : Nat := 12
def LCFG_LCMSK : Nat := 13
def LCFG_RCKEY : Nat := 14
def LCFG_RCMSK : Nat := 15
def LCFG_STOP : Nat := 16
def LCFG_START : Nat := 17

/-- The macro `ROUTE_TO_SPIF`, `(1 << 5)`. -/
def ROUTE_TO_SPIF : Nat := shl32 1 5

/-- The macro `ROUTE_TO_CORE(core)`, `(1 << (core + 6))`.  It is the value of
the C expression for `core ≤ 24`, the range in which C defines the shift;
the eighteen cores of a chip are within it. -/
def ROUTE_TO_CORE (core : Nat) : Nat := shl32 1 (add32 core 6)

/-! ## What the header takes from elsewhere -/

/-- Modelled from the spec: the payload flag of a packet, `WITH_PAYLOAD` of
the SpiNNaker API, which is not among the sources ("payload present"). -/
def WITH_PAYLOAD : Bool := true

/-- Modelled from the spec: the payload flag of a packet, `NO_PAYLOAD` of the
SpiNNaker API, which is not among the sources ("no payload"). -/
def NO_PAYLOAD : Bool := false

/-- Modelled from the spec: the two results of initialisation, `SUCCESS` and
`FAILURE` of the SpiNNaker API, which are not among the sources
("Result<(), ResourceError>"). -/
inductive Outcome where
  | SUCCESS
  | FAILURE
  deriving DecidableEq, Repr

export Outcome (SUCCESS FAILURE)

/-- The register numbers that `spif.h` defines.  The file is not among the
sources, so the numbers are parameters of every function that uses them. -/
structure SpifRegs where
  SPIF_ROUTER_KEY : Nat
  SPIF_ROUTER_MASK : Nat
  SPIF_ROUTER_ROUTE : Nat
  SPIF_IN_DROP_WAIT : Nat
  SPIF_MAPPER_KEY : Nat
  SPIF_MAPPER_MASK : Nat
  SPIF_MAPPER_SHIFT : Nat
  SPIF_MPREGS_NUM : Nat
  SPIF_COUNT_OUT : Nat
  SPIF_DCREGS_NUM : Nat
  deriving DecidableEq, Repr

/-- The SpiNNaker run-time, as seen from the header: each function reads the
hidden state `σ` and, except for the identity query, changes it.
`spin1_send_mc_packet` answers `true` when the packet was accepted (a
non-zero `uint` in C), `rtr_alloc` answers the first slot, `0` for failure. -/
structure Env (σ : Type) where
  spin1_send_mc_packet : σ → Nat → Nat → Bool → σ × Bool
  rtr_alloc : σ → Nat → σ × Nat
  rtr_mc_set : σ → Nat → Nat → Nat → Nat → σ
  spin1_get_core_id : σ → Nat

/-- One call of a run-time function, with its arguments and its answer. -/
inductive Event where
  | send (key data : Nat) (load : Bool) (accepted : Bool)
  | rtr_alloc (size : Nat) (entry : Nat)
  | rtr_mc_set (entry key mask route : Nat)
  | get_core_id (core : Nat)
  deriving DecidableEq, Repr

/-- The hidden state of the run-time and the calls made so far, oldest
first. -/
structure World (σ : Type) where
  st : σ
  log : List Event
  deriving DecidableEq

/-- The result of running a function that contains a send loop. -/
inductive Run (α : Type) where
  | done (a : α)
  | spinning (a : α)
  deriving DecidableEq

/-- The world a run reached, whether it returned or not. -/
def Run.world {α : Type} : Run α → α
  | .done a => a
  | .spinning a => a

/-- Whether the run returned. -/
def Run.returned {α : Type} : Run α → Bool
  | .done _ => true
  | .spinning _ => false

/-- Sequencing of two runs: the second starts where the first returned. -/
def Run.andThen {α : Type} (r : Run α) (k : α → Run α) : Run α :=
  match r with
  | .done a => k a
  | .spinning a => .spinning a

variable {σ : Type}

/-! ## The send loop -/

/-- The statement `while (!spin1_send_mc_packet (key, data, load));`, run for
at most `fuel` attempts. -/
def while_not_sent (env : Env σ) (key data : Nat) (load : Bool) :
    Nat → World σ → Run (World σ)
  | 0, w => .spinning w
  | fuel + 1, w =>
    let r := env.spin1_send_mc_packet w.st key data load
    let w1 : World σ := ⟨r.1, w.log ++ [Event.send key data load r.2]⟩
    if r.2 then .done w1 else while_not_sent env key data load fuel w1

/-! ## The functions of the header -/

/-- The function `void spif_set_peripheral_key (uint key)`. -/
def spif_set_peripheral_key (env : Env σ) (key : Nat) (fuel : Nat)
    (w : World σ) : Run (World σ) :=
  while_not_sent env (LCFG_KEY ||| LCFG_PKEY) key WITH_PAYLOAD fuel w

/-- The function `void spif_set_peripheral_mask (uint mask)`. -/
def spif_set_peripheral_mask (env : Env σ) (mask : Nat) (fuel : Nat)
    (w : World σ) : Run (World σ) :=
  while_not_sent env (LCFG_KEY ||| LCFG_PMSK) mask WITH_PAYLOAD fuel w

/-- The function `void spif_set_routing_key (uint entry, uint key)`. -/
def spif_set_routing_key (env : Env σ) (c : SpifRegs) (entry key : Nat)
    (fuel : Nat) (w : World σ) : Run (World σ) :=
  while_not_sent env (RCFG_KEY ||| add32 c.SPIF_ROUTER_KEY entry) key
    WITH_PAYLOAD fuel w

/-- The function `void spif_set_routing_mask (uint entry, uint mask)`. -/
def spif_set_routing_mask (env : Env σ) (c : SpifRegs) (entry mask : Nat)
    (fuel : Nat) (w : World σ) : Run (World σ) :=
  while_not_sent env (RCFG_KEY ||| add32 c.SPIF_ROUTER_MASK entry) mask
    WITH_PAYLOAD fuel w

/-- The function `void spif_set_routing_route (uint entry, uint route)`. -/
def spif_set_routing_route (env : Env σ) (c : SpifRegs) (entry route : Nat)
    (fuel : Nat) (w : World σ) : Run (World σ) :=
  while_not_sent env (RCFG_KEY ||| add32 c.SPIF_ROUTER_ROUTE entry) route
    WITH_PAYLOAD fuel w

/-- The function `void spif_set_input_drop_wait (uint wait)`. -/
def spif_set_input_drop_wait (env : Env σ) (c : SpifRegs) (wait : Nat)
    (fuel : Nat) (w : World σ) : Run (World σ) :=
  while_not_sent env (RCFG_KEY ||| c.SPIF_IN_DROP_WAIT) wait WITH_PAYLOAD
    fuel w

/-- The function `void spif_set_mapper_key (uint map, uint key)`. -/
def spif_set_mapper_key (env : Env σ) (c : SpifRegs) (map key : Nat)
    (fuel : Nat) (w : World σ) : Run (World σ) :=
  while_not_sent env (RCFG_KEY ||| add32 c.SPIF_MAPPER_KEY map) key
    WITH_PAYLOAD fuel w

/-- The function `void spif_set_mapper_field_mask (uint map, uint field, uint mask)`. -/
def spif_set_mapper_field_mask (env : Env σ) (c : SpifRegs)
    (map field mask : Nat) (fuel : Nat) (w : World σ) : Run (World σ) :=
  while_not_sent env
    (RCFG_KEY |||
      add32 (add32 c.SPIF_MAPPER_MASK (mul32 c.SPIF_MPREGS_NUM map)) field)
    mask WITH_PAYLOAD fuel w

/-- The function `void spif_set_mapper_field_shift (uint map, uint field, uint shift)`. -/
def spif_set_mapper_field_shift (env : Env σ) (c : SpifRegs)
    (map field shift : Nat) (fuel : Nat) (w : World σ) : Run (World σ) :=
  while_not_sent env
    (RCFG_KEY |||
      add32 (add32 c.SPIF_MAPPER_SHIFT (mul32 c.SPIF_MPREGS_NUM map)) field)
    shift WITH_PAYLOAD fuel w

/-- The function `void spif_start_input (void)`. -/
def spif_start_input (env : Env σ) (fuel : Nat) (w : World σ) :
    Run (World σ) :=
  while_not_sent env (LCFG_KEY ||| LCFG_START) 0 NO_PAYLOAD fuel w

/-- The function `void spif_stop_input (void)`. -/
def spif_stop_input (env : Env σ) (fuel : Nat) (w : World σ) :
    Run (World σ) :=
  while_not_sent env (LCFG_KEY ||| LCFG_STOP) 0 NO_PAYLOAD fuel w

/-- The function `void spif_read_counter (uint counter)`. -/
def spif_read_counter (env : Env σ) (counter : Nat) (fuel : Nat)
    (w : World σ) : Run (World σ) :=
  while_not_sent env (RCFG_KEY ||| counter) 0 NO_PAYLOAD fuel w

/-- The loop `for (uint i = 0; i < SPIF_DCREGS_NUM; i++) { ... }` of
`spif_reset_counters`, entered at its test with the given value of `i` and
run for at most the given number of tests.  The key `RCFG_KEY |
SPIF_COUNT_OUT + i` is `RCFG_KEY | (SPIF_COUNT_OUT + i)`, as `+` binds
tighter than `|` in C. -/
def reset_counters_loop (env : Env σ) (c : SpifRegs) (fuel : Nat) :
    Nat → Nat → World σ → Run (World σ)
  | 0, _, w => .spinning w
  | tests + 1, i, w =>
    if i < c.SPIF_DCREGS_NUM then
      (while_not_sent env (RCFG_KEY ||| add32 c.SPIF_COUNT_OUT i) 0
        WITH_PAYLOAD fuel w).andThen
        (reset_counters_loop env c fuel tests (add32 i 1))
    else .done w

/-- The function `void spif_reset_counters ()`.  The bound `fuel` limits the
attempts of each send loop and the number of tests of the `for` loop. -/
def spif_reset_counters (env : Env σ) (c : SpifRegs) (fuel : Nat)
    (w : World σ) : Run (World σ) :=
  reset_counters_loop env c fuel fuel 0 w

/-- A call of `rtr_alloc (size)`: the answer and the world after it. -/
def call_rtr_alloc (env : Env σ) (size : Nat) (w : World σ) :
    Nat × World σ :=
  let a := env.rtr_alloc w.st size
  (a.2, ⟨a.1, w.log ++ [Event.rtr_alloc size a.2]⟩)

/-- A call of `rtr_mc_set (entry, key, mask, route)`; its answer is not
used by the header. -/
def call_rtr_mc_set (env : Env σ) (entry key mask route : Nat)
    (w : World σ) : World σ :=
  ⟨env.rtr_mc_set w.st entry key mask route,
    w.log ++ [Event.rtr_mc_set entry key mask route]⟩

/-- A call of `spin1_get_core_id ()`: the answer and the world after it. -/
def call_get_core_id (env : Env σ) (w : World σ) : Nat × World σ :=
  let core := env.spin1_get_core_id w.st
  (core, ⟨w.st, w.log ++ [Event.get_core_id core]⟩)

/-- The function `uint spif_init ()`. -/
def spif_init (env : Env σ) (w : World σ) : Outcome × World σ :=
  let a := call_rtr_alloc env 3 w
  let entry := a.1
  if entry = 0 then (FAILURE, a.2)
  else
    let w1 := call_rtr_mc_set env entry LCFG_KEY LCFG_MSK ROUTE_TO_SPIF a.2
    let w2 := call_rtr_mc_set env (add32 entry 1) RCFG_KEY RCFG_MSK
      ROUTE_TO_SPIF w1
    let b := call_get_core_id env w2
    let core := b.1
    let w3 := call_rtr_mc_set env (add32 entry 2) RPLY_KEY RPLY_MSK
      (ROUTE_TO_CORE core) b.2
    (SUCCESS, w3)

/-! ## The configuration interface as a whole -/

/-- A call of one of the configuration functions of the header, with its
arguments. -/
inductive Call where
  | set_peripheral_key (key : Nat)
  | set_peripheral_mask (mask : Nat)
  | set_routing_key (entry key : Nat)
  | set_routing_mask (entry mask : Nat)
  | set_routing_route (entry route : Nat)
  | set_input_drop_wait (wait : Nat)
  | set_mapper_key (map key : Nat)
  | set_mapper_field_mask (map field mask : Nat)
  | set_mapper_field_shift (map field shift : Nat)
  | start_input
  | stop_input
  | read_counter (counter : Nat)
  | reset_counters
  deriving DecidableEq, Repr

/-- The run of a call. -/
def Call.run (env : Env σ) (c : SpifRegs) (fuel : Nat) :
    Call → World σ → Run (World σ)
  | .set_peripheral_key key => spif_set_peripheral_key env key fuel
  | .set_peripheral_mask mask => spif_set_peripheral_mask env mask fuel
  | .set_routing_key entry key => spif_set_routing_key env c entry key fuel
  | .set_routing_mask entry mask => spif_set_routing_mask env c entry mask fuel
  | .set_routing_route entry route =>
    spif_set_routing_route env c entry route fuel
  | .set_input_drop_wait wait => spif_set_input_drop_wait env c wait fuel
  | .set_mapper_key map key => spif_set_mapper_key env c map key fuel
  | .set_mapper_field_mask map field mask =>
    spif_set_mapper_field_mask env c map field mask fuel
  | .set_mapper_field_shift map field shift =>
    spif_set_mapper_field_shift env c map field shift fuel
  | .start_input => spif_start_input env fuel
  | .stop_input => spif_stop_input env fuel
  | .read_counter counter => spif_read_counter env counter fuel
  | .reset_counters => spif_reset_counters env c fuel

/-- The calls whose function holds one send loop and no other statement:
all but `spif_reset_counters`. -/
def Call.single_packet : Call → Bool
  | .reset_counters => false
  | _ => true

/-! ## Vocabulary of the statements -/

/-- The sender rejects the next `K` attempts to send the packet and accepts
the one after them, when the run-time is in state `s`. -/
def accepts_after (env : Env σ) (key data : Nat) (load : Bool) :
    Nat → σ → Bool
  | 0, s => (env.spin1_send_mc_packet s key data load).2
  | K + 1, s =>
    !(env.spin1_send_mc_packet s key data load).2 &&
      accepts_after env key data load K
        (env.spin1_send_mc_packet s key data load).1

/-- The state of the run-time after `n` attempts to send the packet. -/
def after_attempts (env : Env σ) (key data : Nat) (load : Bool) :
    Nat → σ → σ
  | 0, s => s
  | n + 1, s =>
    after_attempts env key data load n
      (env.spin1_send_mc_packet s key data load).1

/-- The calls of a send loop that returned after `K` rejected attempts: the
`K` rejected attempts and the accepted one, all with the same packet. -/
def attempts (key data : Nat) (load : Bool) (K : Nat) : List Event :=
  List.replicate K (Event.send key data load false) ++
    [Event.send key data load true]

/-- Every packet is accepted after finitely many attempts, whatever the
state of the run-time. -/
def EventuallyAccepts (env : Env σ) : Prop :=
  ∀ (s : σ) (key data : Nat) (load : Bool),
    ∃ K, accepts_after env key data load K s = true

/-- The packets of the accepted sends of a log, oldest first. -/
def accepted_sends : List Event → List (Nat × Nat × Bool)
  | [] => []
  | Event.send key data load true :: l => (key, data, load) :: accepted_sends l
  | _ :: l => accepted_sends l

/-- A sender for tests: its state is the number of attempts it will still
reject; it accepts the attempt after them and then rejects `period`
attempts again.  The routing calls are those of a table whose free block
starts at `slot` (`0`: no free block), on core `core`. -/
def stub (period slot core : Nat) : Env Nat where
  spin1_send_mc_packet := fun s _ _ _ =>
    if s = 0 then (period, true) else (s - 1, false)
  rtr_alloc := fun s _ => (s, slot)
  rtr_mc_set := fun s _ _ _ _ => s
  spin1_get_core_id := fun _ => core

/-- Register numbers for tests. -/
def regs0 : SpifRegs where
  SPIF_ROUTER_KEY := 16
  SPIF_ROUTER_MASK := 32
  SPIF_ROUTER_ROUTE := 48
  SPIF_IN_DROP_WAIT := 5
  SPIF_MAPPER_KEY := 2
  SPIF_MAPPER_MASK := 80
  SPIF_MAPPER_SHIFT := 96
  SPIF_MPREGS_NUM := 4
  SPIF_COUNT_OUT := 64
  SPIF_DCREGS_NUM := 3

/-! ## Programs, packets and routes -/

/-- The calls of a core, run in program order: each starts in the world in
which the one before it returned. -/
def run_calls (env : Env σ) (c : SpifRegs) (fuel : Nat) :
    List Call → World σ → Run (World σ)
  | [], w => .done w
  | call :: rest, w =>
    (call.run env c fuel w).andThen (run_calls env c fuel rest)

/-- The packets of a call: the arguments `(key, data, load)` of
`spin1_send_mc_packet` in its send loops, in the order of the loops. -/
def Call.packets (c : SpifRegs) : Call → List (Nat × Nat × Bool)
  | .set_peripheral_key key => [(LCFG_KEY ||| LCFG_PKEY, key, WITH_PAYLOAD)]
  | .set_peripheral_mask mask => [(LCFG_KEY ||| LCFG_PMSK, mask, WITH_PAYLOAD)]
  | .set_routing_key entry key =>
    [(RCFG_KEY ||| add32 c.SPIF_ROUTER_KEY entry, key, WITH_PAYLOAD)]
  | .set_routing_mask entry mask =>
    [(RCFG_KEY ||| add32 c.SPIF_ROUTER_MASK entry, mask, WITH_PAYLOAD)]
  | .set_routing_route entry route =>
    [(RCFG_KEY ||| add32 c.SPIF_ROUTER_ROUTE entry, route, WITH_PAYLOAD)]
  | .set_input_drop_wait wait =>
    [(RCFG_KEY ||| c.SPIF_IN_DROP_WAIT, wait, WITH_PAYLOAD)]
  | .set_mapper_key map key =>
    [(RCFG_KEY ||| add32 c.SPIF_MAPPER_KEY map, key, WITH_PAYLOAD)]
  | .set_mapper_field_mask map field mask =>
    [(RCFG_KEY |||
        add32 (add32 c.SPIF_MAPPER_MASK (mul32 c.SPIF_MPREGS_NUM map)) field,
      mask, WITH_PAYLOAD)]
  | .set_mapper_field_shift map field shift =>
    [(RCFG_KEY |||
        add32 (add32 c.SPIF_MAPPER_SHIFT (mul32 c.SPIF_MPREGS_NUM map)) field,
      shift, WITH_PAYLOAD)]
  | .start_input => [(LCFG_KEY ||| LCFG_START, 0, NO_PAYLOAD)]
  | .stop_input => [(LCFG_KEY ||| LCFG_STOP, 0, NO_PAYLOAD)]
  | .read_counter counter => [(RCFG_KEY ||| counter, 0, NO_PAYLOAD)]
  | .reset_counters =>
    (List.range c.SPIF_DCREGS_NUM).map
      (fun i => (RCFG_KEY ||| add32 c.SPIF_COUNT_OUT i, 0, WITH_PAYLOAD))

/-- The calls whose key is built from `LCFG_KEY`; the key of every other
call is built from `RCFG_KEY`. -/
def Call.local_config : Call → Bool
  | .set_peripheral_key _ => true
  | .set_peripheral_mask _ => true
  | .start_input => true
  | .stop_input => true
  | _ => false

/-- One send loop after the other, for the packets of a list. -/
def send_all (env : Env σ) (fuel : Nat) :
    List (Nat × Nat × Bool) → World σ → Run (World σ)
  | [], w => .done w
  | p :: ps, w =>
    (while_not_sent env p.1 p.2.1 p.2.2 fuel w).andThen (send_all env fuel ps)

/-- The log of send loops that all returned: for each packet in turn, the
rejected attempts, as many as the list of numbers says, and the accepted
one. -/
def sent_log : List (Nat × Nat × Bool) → List Nat → List Event
  | p :: ps, K :: Ks => attempts p.1 p.2.1 p.2.2 K ++ sent_log ps Ks
  | _, _ => []

/-- The calls of a `spif_init` that found a free block at `entry`, on
core `core`. -/
def init_calls (entry core : Nat) : List Event :=
  [Event.rtr_alloc 3 entry,
   Event.rtr_mc_set entry LCFG_KEY LCFG_MSK ROUTE_TO_SPIF,
   Event.rtr_mc_set (add32 entry 1) RCFG_KEY RCFG_MSK ROUTE_TO_SPIF,
   Event.get_core_id core,
   Event.rtr_mc_set (add32 entry 2) RPLY_KEY RPLY_MSK (ROUTE_TO_CORE core)]

/-- Modelled from the spec: the match of the router, which is hardware.  An
entry `(key, mask, route)` matches a packet with key `k` when
`(k & mask) = key`.  The function lists the routes of the entries that a log
of `rtr_mc_set` calls wrote and that match `k`. -/
def routes_of : List Event → Nat → List Nat
  | [], _ => []
  | Event.rtr_mc_set _ key mask route :: l, k =>
    if k &&& mask = key then route :: routes_of l k else routes_of l k
  | _ :: l, k => routes_of l k

/-- The four classes of packets of the header, as pairs `(key, mask)`. -/
def packet_classes : List (Nat × Nat) :=
  [(PER_KEY, PER_MSK), (LCFG_KEY, LCFG_MSK), (RCFG_KEY, RCFG_MSK),
   (RPLY_KEY, RPLY_MSK)]

/-- The conversion of an `int` argument to a `uint` parameter that C makes
at a call: the value modulo `2^32`. -/
def uint_of_int (s : Int) : Nat := (s % 2 ^ 32).toNat

/-- A `uint` read as the two's-complement `int` with the same 32 bits. -/
def int_of_uint (p : Nat) : Int :=
  if p < 2 ^ 31 then (p : Int) else (p : Int) - 2 ^ 32

/-! ## Lemmas on the arithmetic -/

theorem add32_add32_mul32 (a n m f : Nat) :
    add32 (add32 a (mul32 n m)) f = (a + n * m + f) % 2 ^ 32 := by
  unfold add32 mul32
  omega

theorem add32_of_lt {a b : Nat} (h : a + b < 2 ^ 32) : add32 a b = a + b := by
  unfold add32
  exact Nat.mod_eq_of_lt h

/-! ## Lemmas on the send loop -/

theorem while_not_sent_attempts (env : Env σ) (key data : Nat) (load : Bool) :
    ∀ (fuel : Nat) (w : World σ), ∃ evs,
      (while_not_sent env key data load fuel w).world.log = w.log ++ evs ∧
      ∀ e ∈ evs, ∃ ok, e = Event.send key data load ok := by
  intro fuel
  induction fuel with
  | zero =>
    intro w
    exact ⟨[], by simp [while_not_sent, Run.world], by simp⟩
  | succ fuel ih =>
    intro w
    unfold while_not_sent
    by_cases hacc : (env.spin1_send_mc_packet w.st key data load).2 = true
    · refine ⟨[Event.send key data load true], ?_, ?_⟩
      · simp [hacc, Run.world]
      · intro e he
        exact ⟨true, by simpa using he⟩
    · have hrej : (env.spin1_send_mc_packet w.st key data load).2 = false := by
        simpa using hacc
      obtain ⟨evs, hlog, hall⟩ := ih
        ⟨(env.spin1_send_mc_packet w.st key data load).1,
          w.log ++ [Event.send key data load false]⟩
      refine ⟨Event.send key data load false :: evs, ?_, ?_⟩
      · simp only [hrej]
        simpa using hlog
      · intro e he
        rcases List.mem_cons.mp he with h | h
        · exact ⟨false, h⟩
        · exact hall e h

theorem attempts_succ (key data : Nat) (load : Bool) (K : Nat) :
    attempts key data load (K + 1) =
      Event.send key data load false :: attempts key data load K := by
  simp [attempts, List.replicate_succ]

theorem while_not_sent_done (env : Env σ) (key data : Nat) (load : Bool) :
    ∀ (K fuel : Nat) (w : World σ),
      accepts_after env key data load K w.st = true → K < fuel →
      while_not_sent env key data load fuel w =
        .done ⟨after_attempts env key data load (K + 1) w.st,
          w.log ++ attempts key data load K⟩ := by
  intro K
  induction K with
  | zero =>
    intro fuel w hacc hfuel
    obtain ⟨fuel, rfl⟩ :=
      Nat.exists_eq_succ_of_ne_zero (Nat.pos_iff_ne_zero.mp hfuel)
    simp only [accepts_after] at hacc
    simp [while_not_sent, hacc, after_attempts, attempts]
  | succ K ih =>
    intro fuel w hacc hfuel
    obtain ⟨fuel, rfl⟩ :=
      Nat.exists_eq_succ_of_ne_zero (Nat.not_eq_zero_of_lt hfuel)
    simp only [accepts_after, Bool.and_eq_true, Bool.not_eq_true'] at hacc
    have h := ih fuel
      ⟨(env.spin1_send_mc_packet w.st key data load).1,
        w.log ++ [Event.send key data load false]⟩ hacc.2 (by omega)
    unfold while_not_sent
    simp only [hacc.1]
    simp only [Bool.false_eq_true, if_false]
    rw [h, attempts_succ]
    simp [after_attempts]

theorem while_not_sent_returns (env : Env σ) (hacc : EventuallyAccepts env)
    (key data : Nat) (load : Bool) (w : World σ) :
    ∃ K, ∀ fuel, K < fuel →
      while_not_sent env key data load fuel w =
        .done ⟨after_attempts env key data load (K + 1) w.st,
          w.log ++ attempts key data load K⟩ := by
  obtain ⟨K, hK⟩ := hacc w.st key data load
  exact ⟨K, fun fuel hfuel =>
    while_not_sent_done env key data load K fuel w hK hfuel⟩

theorem accepted_sends_append (l₁ l₂ : List Event) :
    accepted_sends (l₁ ++ l₂) = accepted_sends l₁ ++ accepted_sends l₂ := by
  induction l₁ with
  | nil => rfl
  | cons e l ih =>
    cases e with
    | send key data load ok =>
      cases ok <;> simp [accepted_sends, ih]
    | rtr_alloc size entry => simpa [accepted_sends] using ih
    | rtr_mc_set entry key mask route => simpa [accepted_sends] using ih
    | get_core_id core => simpa [accepted_sends] using ih

theorem accepted_sends_attempts (key data : Nat) (load : Bool) (K : Nat) :
    accepted_sends (attempts key data load K) = [(key, data, load)] := by
  induction K with
  | zero => rfl
  | succ K ih => simpa [attempts_succ, accepted_sends] using ih

theorem mem_attempts {key data : Nat} {load : Bool} {K : Nat} {e : Event}
    (h : e ∈ attempts key data load K) : ∃ ok, e = Event.send key data load ok := by
  rcases List.mem_append.mp h with h | h
  · exact ⟨false, List.eq_of_mem_replicate h⟩
  · exact ⟨true, by simpa using h⟩

/-! ## Lemmas on the loop of `spif_reset_counters` -/

theorem reset_counters_loop_total (env : Env σ) (c : SpifRegs)
    (hacc : EventuallyAccepts env) (hN : c.SPIF_DCREGS_NUM < 2 ^ 32) :
    ∀ (d i : Nat) (w : World σ), i + d = c.SPIF_DCREGS_NUM →
      ∃ (w1 : World σ) (fuel0 : Nat) (evs : List Event),
        (∀ fuel tests, fuel0 ≤ fuel → d < tests →
          reset_counters_loop env c fuel tests i w = .done w1) ∧
        w1.log = w.log ++ evs ∧
        accepted_sends evs = (List.range' i d).map
          (fun j => (RCFG_KEY ||| add32 c.SPIF_COUNT_OUT j, 0, true)) ∧
        ∀ e ∈ evs, ∃ key ok, e = Event.send key 0 true ok := by
  intro d
  induction d with
  | zero =>
    intro i w hi
    refine ⟨w, 0, [], ?_, by simp, by simp [accepted_sends], by simp⟩
    intro fuel tests _ ht
    obtain ⟨tests, rfl⟩ :=
      Nat.exists_eq_succ_of_ne_zero (Nat.not_eq_zero_of_lt ht)
    have : ¬ i < c.SPIF_DCREGS_NUM := by omega
    simp [reset_counters_loop, this]
  | succ d ih =>
    intro i w hi
    obtain ⟨K, hK⟩ := hacc w.st (RCFG_KEY ||| add32 c.SPIF_COUNT_OUT i) 0 true
    have hnext : add32 i 1 = i + 1 := add32_of_lt (by omega)
    obtain ⟨w1, fuel1, evs1, hrun, hlog, hsends, hall⟩ := ih (i + 1)
      ⟨after_attempts env (RCFG_KEY ||| add32 c.SPIF_COUNT_OUT i) 0 true
          (K + 1) w.st,
        w.log ++ attempts (RCFG_KEY ||| add32 c.SPIF_COUNT_OUT i) 0 true K⟩
      (by omega)
    refine ⟨w1, max (K + 1) fuel1,
      attempts (RCFG_KEY ||| add32 c.SPIF_COUNT_OUT i) 0 true K ++ evs1,
      ?_, ?_, ?_, ?_⟩
    · intro fuel tests hfuel ht
      obtain ⟨tests, rfl⟩ :=
        Nat.exists_eq_succ_of_ne_zero (Nat.not_eq_zero_of_lt ht)
      have hlt : i < c.SPIF_DCREGS_NUM := by omega
      have hsend := while_not_sent_done env
        (RCFG_KEY ||| add32 c.SPIF_COUNT_OUT i) 0 true K fuel w hK
        (by have := le_max_left (K + 1) fuel1; omega)
      unfold reset_counters_loop
      simp only [hlt, if_true, WITH_PAYLOAD, hsend, Run.andThen, hnext]
      exact hrun fuel tests (by have := le_max_right (K + 1) fuel1; omega)
        (by omega)
    · rw [hlog]
      simp
    · rw [accepted_sends_append, accepted_sends_attempts, hsends]
      simp [List.range'_succ]
    · intro e he
      rcases List.mem_append.mp he with h | h
      · obtain ⟨ok, hok⟩ := mem_attempts h
        exact ⟨_, ok, hok⟩
      · exact hall e h

/-! ## Lemmas on the test sender -/

theorem stub_accepts_after (period slot core key data : Nat) (load : Bool) :
    ∀ s : Nat,
      accepts_after (stub period slot core) key data load s s = true := by
  intro s
  induction s with
  | zero => simp [accepts_after, stub]
  | succ s ih => simpa [accepts_after, stub] using ih

theorem stub_eventually (period slot core : Nat) :
    EventuallyAccepts (stub period slot core) :=
  fun s key data load =>
    ⟨s, stub_accepts_after period slot core key data load s⟩

/-! ## The claims -/

/-- C1: every attempt of `spif_set_mapper_field_mask (m, f, v)` to send, in a
run of any length under any sender, has key
`0xffffff00 | (SPIF_MAPPER_MASK + SPIF_MPREGS_NUM * m + f)` (the sum taken
modulo `2^32`), payload `v` and the payload flag set, and the run makes no
other call; the same with `SPIF_MAPPER_SHIFT` for
`spif_set_mapper_field_shift`. -/
theorem mapper_field_attempts (env : Env σ) (c : SpifRegs) (m f v fuel : Nat)
    (w : World σ) :
    (∃ evs,
      (spif_set_mapper_field_mask env c m f v fuel w).world.log = w.log ++ evs ∧
      ∀ e ∈ evs, ∃ ok, e = Event.send
        (0xffffff00 ||| (c.SPIF_MAPPER_MASK + c.SPIF_MPREGS_NUM * m + f) % 2 ^ 32)
        v true ok) ∧
    (∃ evs,
      (spif_set_mapper_field_shift env c m f v fuel w).world.log = w.log ++ evs ∧
      ∀ e ∈ evs, ∃ ok, e = Event.send
        (0xffffff00 ||| (c.SPIF_MAPPER_SHIFT + c.SPIF_MPREGS_NUM * m + f) % 2 ^ 32)
        v true ok) := by
  constructor
  · unfold spif_set_mapper_field_mask
    rw [add32_add32_mul32]
    exact while_not_sent_attempts env _ v true fuel w
  · unfold spif_set_mapper_field_shift
    rw [add32_add32_mul32]
    exact while_not_sent_attempts env _ v true fuel w

/-- C2: under a sender that accepts every packet after finitely many
attempts, and for a 32-bit `SPIF_DCREGS_NUM`, `spif_reset_counters` returns
(for every bound on the loops from some bound on); it calls nothing but
`spin1_send_mc_packet`, with payload `0` and the payload flag set; its
accepted sends are exactly `SPIF_DCREGS_NUM`, and the `i`-th of them has key
`RCFG_KEY | (SPIF_COUNT_OUT + i)`, the sum taken modulo `2^32`, for
`i = 0, 1, ...` in ascending order. -/
theorem spif_reset_counters_sends (env : Env σ) (c : SpifRegs) (w : World σ)
    (hacc : EventuallyAccepts env) (hN : c.SPIF_DCREGS_NUM < 2 ^ 32) :
    ∃ (w1 : World σ) (fuel0 : Nat) (evs : List Event),
      (∀ fuel, fuel0 ≤ fuel → spif_reset_counters env c fuel w = .done w1) ∧
      w1.log = w.log ++ evs ∧
      (∀ e ∈ evs, ∃ key ok, e = Event.send key 0 true ok) ∧
      (accepted_sends evs).length = c.SPIF_DCREGS_NUM ∧
      accepted_sends evs = (List.range c.SPIF_DCREGS_NUM).map
        (fun i => (RCFG_KEY ||| (c.SPIF_COUNT_OUT + i) % 2 ^ 32, 0, true)) := by
  obtain ⟨w1, fuel1, evs, hrun, hlog, hsends, hall⟩ :=
    reset_counters_loop_total env c hacc hN c.SPIF_DCREGS_NUM 0 w (by omega)
  have hlist : accepted_sends evs = (List.range c.SPIF_DCREGS_NUM).map
      (fun i => (RCFG_KEY ||| (c.SPIF_COUNT_OUT + i) % 2 ^ 32, 0, true)) := by
    rw [hsends, List.range_eq_range']
    rfl
  refine ⟨w1, max fuel1 (c.SPIF_DCREGS_NUM + 1), evs, ?_, hlog, hall, ?_, hlist⟩
  · intro fuel hfuel
    have h1 := le_max_left fuel1 (c.SPIF_DCREGS_NUM + 1)
    have h2 := le_max_right fuel1 (c.SPIF_DCREGS_NUM + 1)
    exact hrun fuel fuel (by omega) (by omega)
  · rw [hlist]
    simp

/-- An instance of C2: a sender that rejects two attempts in three, three
counters. -/
theorem spif_reset_counters_sends_witness :
    EventuallyAccepts (stub 2 7 3) ∧ regs0.SPIF_DCREGS_NUM < 2 ^ 32 ∧
    ∃ (w1 : World Nat) (fuel0 : Nat) (evs : List Event),
      (∀ fuel, fuel0 ≤ fuel →
        spif_reset_counters (stub 2 7 3) regs0 fuel ⟨1, []⟩ = .done w1) ∧
      w1.log = [] ++ evs ∧
      (∀ e ∈ evs, ∃ key ok, e = Event.send key 0 true ok) ∧
      (accepted_sends evs).length = regs0.SPIF_DCREGS_NUM ∧
      accepted_sends evs = (List.range regs0.SPIF_DCREGS_NUM).map
        (fun i => (RCFG_KEY ||| (regs0.SPIF_COUNT_OUT + i) % 2 ^ 32, 0, true)) :=
  ⟨stub_eventually 2 7 3, by decide,
    spif_reset_counters_sends (stub 2 7 3) regs0 ⟨1, []⟩ (stub_eventually 2 7 3)
      (by decide)⟩

/-- C3: a call of any configuration function with one send loop, under a
sender that rejects the next `K` attempts and accepts the one after them,
returns (whenever the bound on the loop exceeds `K`) after exactly `K + 1`
attempts to send, all with one and the same key, payload and payload flag:
`K` rejected and the last accepted.  The functions without payload are
among them. -/
theorem single_packet_retry (env : Env σ) (c : SpifRegs) (call : Call)
    (K fuel : Nat) (w : World σ)
    (hsingle : call.single_packet = true)
    (hstub : ∀ key data load, accepts_after env key data load K w.st = true)
    (hfuel : K < fuel) :
    ∃ key data load,
      call.run env c fuel w =
        .done ⟨after_attempts env key data load (K + 1) w.st,
          w.log ++ attempts key data load K⟩ ∧
      (attempts key data load K).length = K + 1 := by
  cases call with
  | reset_counters => simp [Call.single_packet] at hsingle
  | _ =>
    exact ⟨_, _, _, while_not_sent_done env _ _ _ K fuel w (hstub _ _ _) hfuel,
      by simp [attempts]⟩

/-- An instance of C3: `spif_start_input`, which has no payload, under a
sender that rejects two attempts. -/
theorem single_packet_retry_witness :
    Call.single_packet .start_input = true ∧
    (∀ key data load, accepts_after (stub 2 7 3) key data load 2 2 = true) ∧
    2 < 5 ∧
    ∃ key data load,
      Call.run (stub 2 7 3) regs0 5 .start_input ⟨2, []⟩ =
        .done ⟨after_attempts (stub 2 7 3) key data load (2 + 1) 2,
          [] ++ attempts key data load 2⟩ ∧
      (attempts key data load 2).length = 2 + 1 :=
  ⟨rfl, fun _ _ _ => rfl, by decide,
    single_packet_retry (stub 2 7 3) regs0 .start_input 2 5 ⟨2, []⟩ rfl
      (fun _ _ _ => rfl) (by decide)⟩

/-- C4: when `rtr_alloc (3)` answers a slot `e` other than `0` and the
identity query answers a core identifier `c ≤ 24` - the range in which C
defines `1 << (c + 6)`, and which holds the eighteen cores of a chip -
`spif_init` returns `SUCCESS` and calls, in this order, `rtr_alloc (3)`,
`rtr_mc_set (e, 0xfffffe00, 0xffffff00, 1 << 5)`,
`rtr_mc_set (e + 1, 0xffffff00, 0xffffff00, 1 << 5)`, the identity query and
`rtr_mc_set (e + 2, 0xfffffd00, 0xffffff00, 1 << (c + 6))`, and nothing else;
`e + 1` and `e + 2` are `uint` sums, the plain sums when `e + 2 < 2^32`. -/
theorem spif_init_success (env : Env σ) (w : World σ) (e c : Nat)
    (he : (env.rtr_alloc w.st 3).2 = e) (hne : e ≠ 0)
    (hc : ∀ s, env.spin1_get_core_id s = c) (hc24 : c ≤ 24) :
    (spif_init env w).1 = SUCCESS ∧
    (spif_init env w).2.log = w.log ++
      [Event.rtr_alloc 3 e,
       Event.rtr_mc_set e 0xfffffe00 0xffffff00 (1 <<< 5),
       Event.rtr_mc_set ((e + 1) % 2 ^ 32) 0xffffff00 0xffffff00 (1 <<< 5),
       Event.get_core_id c,
       Event.rtr_mc_set ((e + 2) % 2 ^ 32) 0xfffffd00 0xffffff00
         (1 <<< (c + 6))] ∧
    (e + 2 < 2 ^ 32 →
      (spif_init env w).2.log = w.log ++
        [Event.rtr_alloc 3 e,
         Event.rtr_mc_set e 0xfffffe00 0xffffff00 (1 <<< 5),
         Event.rtr_mc_set (e + 1) 0xffffff00 0xffffff00 (1 <<< 5),
         Event.get_core_id c,
         Event.rtr_mc_set (e + 2) 0xfffffd00 0xffffff00 (1 <<< (c + 6))]) := by
  have h3 : (c + 6) % 2 ^ 32 = c + 6 := Nat.mod_eq_of_lt (by omega)
  have h4 : (1 <<< (c + 6)) % 2 ^ 32 = 1 <<< (c + 6) := by
    apply Nat.mod_eq_of_lt
    rw [Nat.one_shiftLeft]
    exact Nat.pow_lt_pow_right (by decide) (by omega)
  have hroute : ROUTE_TO_CORE c = 1 <<< (c + 6) := by
    unfold ROUTE_TO_CORE shl32 add32
    rw [h3, h4]
  have hlog : (spif_init env w).2.log = w.log ++
      [Event.rtr_alloc 3 e,
       Event.rtr_mc_set e 0xfffffe00 0xffffff00 (1 <<< 5),
       Event.rtr_mc_set ((e + 1) % 2 ^ 32) 0xffffff00 0xffffff00 (1 <<< 5),
       Event.get_core_id c,
       Event.rtr_mc_set ((e + 2) % 2 ^ 32) 0xfffffd00 0xffffff00
         (1 <<< (c + 6))] := by
    rw [← hroute]
    simp [spif_init, call_rtr_alloc, call_rtr_mc_set, call_get_core_id, he, hne,
      hc, LCFG_KEY, LCFG_MSK, RCFG_KEY, RCFG_MSK, RPLY_KEY, RPLY_MSK,
      ROUTE_TO_SPIF, shl32, add32]
  refine ⟨?_, hlog, ?_⟩
  · simp [spif_init, call_rtr_alloc, he, hne]
  · intro he2
    rw [hlog]
    have h1 : (e + 1) % 2 ^ 32 = e + 1 := Nat.mod_eq_of_lt (by omega)
    have h2 : (e + 2) % 2 ^ 32 = e + 2 := Nat.mod_eq_of_lt he2
    rw [h1, h2]

/-- An instance of C4: the free block starts at slot 7, on core 3. -/
theorem spif_init_success_witness :
    ((stub 2 7 3).rtr_alloc 0 3).2 = 7 ∧ 7 ≠ 0 ∧
    (∀ s, (stub 2 7 3).spin1_get_core_id s = 3) ∧ 3 ≤ 24 ∧
    (spif_init (stub 2 7 3) ⟨0, []⟩).1 = SUCCESS ∧
    (spif_init (stub 2 7 3) ⟨0, []⟩).2.log = [] ++
      [Event.rtr_alloc 3 7,
       Event.rtr_mc_set 7 0xfffffe00 0xffffff00 (1 <<< 5),
       Event.rtr_mc_set ((7 + 1) % 2 ^ 32) 0xffffff00 0xffffff00 (1 <<< 5),
       Event.get_core_id 3,
       Event.rtr_mc_set ((7 + 2) % 2 ^ 32) 0xfffffd00 0xffffff00
         (1 <<< (3 + 6))] ∧
    (7 + 2 < 2 ^ 32 →
      (spif_init (stub 2 7 3) ⟨0, []⟩).2.log = [] ++
        [Event.rtr_alloc 3 7,
         Event.rtr_mc_set 7 0xfffffe00 0xffffff00 (1 <<< 5),
         Event.rtr_mc_set (7 + 1) 0xffffff00 0xffffff00 (1 <<< 5),
         Event.get_core_id 3,
         Event.rtr_mc_set (7 + 2) 0xfffffd00 0xffffff00 (1 <<< (3 + 6))]) :=
  ⟨rfl, by decide, fun _ => rfl, by decide,
    spif_init_success (stub 2 7 3) ⟨0, []⟩ 7 3 rfl (by decide) (fun _ => rfl)
      (by decide)⟩

/-- C5: `spif_init` returns `FAILURE` exactly when `rtr_alloc (3)` answers
`0`; it has then called nothing but `rtr_alloc (3)` - no `rtr_mc_set`, no
identity query - and the state of the run-time is the one the allocator
left. -/
theorem spif_init_failure (env : Env σ) (w : World σ) :
    ((spif_init env w).1 = FAILURE ↔ (env.rtr_alloc w.st 3).2 = 0) ∧
    ((env.rtr_alloc w.st 3).2 = 0 →
      (spif_init env w).2 =
        ⟨(env.rtr_alloc w.st 3).1, w.log ++ [Event.rtr_alloc 3 0]⟩) := by
  constructor
  · by_cases h : (env.rtr_alloc w.st 3).2 = 0
    · simp [spif_init, call_rtr_alloc, h]
    · simp [spif_init, call_rtr_alloc, h]
  · intro h
    simp [spif_init, call_rtr_alloc, h]

/-- An instance of C5: a routing table with no free block. -/
theorem spif_init_failure_witness :
    ((stub 2 0 3).rtr_alloc 4 3).2 = 0 ∧
    (spif_init (stub 2 0 3) ⟨4, []⟩).1 = FAILURE ∧
    (spif_init (stub 2 0 3) ⟨4, []⟩).2 = ⟨4, [Event.rtr_alloc 3 0]⟩ :=
  ⟨rfl, (spif_init_failure (stub 2 0 3) ⟨4, []⟩).1.mpr rfl,
    (spif_init_failure (stub 2 0 3) ⟨4, []⟩).2 rfl⟩

/-- C6: under a sender that accepts every packet after finitely many
attempts, `spif_set_routing_key (n, v)`, `spif_set_routing_mask (n, v)` and
`spif_set_routing_route (n, v)` return (whenever the bound on the loop is
large enough) having done nothing but try to send one packet until it was
accepted: key `0xffffff00 | (BASE + n)`, the sum taken modulo `2^32`, payload
`v`, payload flag set, where `BASE` is `SPIF_ROUTER_KEY`, `SPIF_ROUTER_MASK`
and `SPIF_ROUTER_ROUTE` respectively. -/
theorem routing_fields_send (env : Env σ) (c : SpifRegs) (n v : Nat)
    (w : World σ) (hacc : EventuallyAccepts env) :
    (∃ K, ∀ fuel, K < fuel →
      spif_set_routing_key env c n v fuel w =
        .done ⟨after_attempts env
            (0xffffff00 ||| (c.SPIF_ROUTER_KEY + n) % 2 ^ 32) v true (K + 1) w.st,
          w.log ++ attempts (0xffffff00 ||| (c.SPIF_ROUTER_KEY + n) % 2 ^ 32) v true K⟩) ∧
    (∃ K, ∀ fuel, K < fuel →
      spif_set_routing_mask env c n v fuel w =
        .done ⟨after_attempts env
            (0xffffff00 ||| (c.SPIF_ROUTER_MASK + n) % 2 ^ 32) v true (K + 1) w.st,
          w.log ++ attempts (0xffffff00 ||| (c.SPIF_ROUTER_MASK + n) % 2 ^ 32) v true K⟩) ∧
    (∃ K, ∀ fuel, K < fuel →
      spif_set_routing_route env c n v fuel w =
        .done ⟨after_attempts env
            (0xffffff00 ||| (c.SPIF_ROUTER_ROUTE + n) % 2 ^ 32) v true (K + 1) w.st,
          w.log ++ attempts (0xffffff00 ||| (c.SPIF_ROUTER_ROUTE + n) % 2 ^ 32) v true K⟩) :=
  ⟨while_not_sent_returns env hacc _ v true w,
    while_not_sent_returns env hacc _ v true w,
    while_not_sent_returns env hacc _ v true w⟩

/-- An instance of C6: slot 1 and value 9, under a sender that rejects two
attempts in three. -/
theorem routing_fields_send_witness :
    EventuallyAccepts (stub 2 7 3) ∧
    (∃ K, ∀ fuel, K < fuel →
      spif_set_routing_key (stub 2 7 3) regs0 1 9 fuel ⟨1, []⟩ =
        .done ⟨after_attempts (stub 2 7 3)
            (0xffffff00 ||| (regs0.SPIF_ROUTER_KEY + 1) % 2 ^ 32) 9 true (K + 1) 1,
          [] ++ attempts (0xffffff00 ||| (regs0.SPIF_ROUTER_KEY + 1) % 2 ^ 32) 9 true K⟩) ∧
    (∃ K, ∀ fuel, K < fuel →
      spif_set_routing_mask (stub 2 7 3) regs0 1 9 fuel ⟨1, []⟩ =
        .done ⟨after_attempts (stub 2 7 3)
            (0xffffff00 ||| (regs0.SPIF_ROUTER_MASK + 1) % 2 ^ 32) 9 true (K + 1) 1,
          [] ++ attempts (0xffffff00 ||| (regs0.SPIF_ROUTER_MASK + 1) % 2 ^ 32) 9 true K⟩) ∧
    (∃ K, ∀ fuel, K < fuel →
      spif_set_routing_route (stub 2 7 3) regs0 1 9 fuel ⟨1, []⟩ =
        .done ⟨after_attempts (stub 2 7 3)
            (0xffffff00 ||| (regs0.SPIF_ROUTER_ROUTE + 1) % 2 ^ 32) 9 true (K + 1) 1,
          [] ++ attempts (0xffffff00 ||| (regs0.SPIF_ROUTER_ROUTE + 1) % 2 ^ 32) 9 true K⟩) :=
  ⟨stub_eventually 2 7 3,
    routing_fields_send (stub 2 7 3) regs0 1 9 ⟨1, []⟩ (stub_eventually 2 7 3)⟩

/-- C7: under a sender that accepts every packet after finitely many
attempts, `spif_set_peripheral_key (v)` returns having done nothing but try
to send the packet with key `0xfffffe02`, payload `v` and the payload flag
set until it was accepted, and `spif_set_peripheral_mask (v)` the same with
key `0xfffffe03`; the keys are `LCFG_KEY | 2` and `LCFG_KEY | 3`. -/
theorem peripheral_key_mask_send (env : Env σ) (v : Nat) (w : World σ)
    (hacc : EventuallyAccepts env) :
    (∃ K, ∀ fuel, K < fuel →
      spif_set_peripheral_key env v fuel w =
        .done ⟨after_attempts env 0xfffffe02 v true (K + 1) w.st,
          w.log ++ attempts 0xfffffe02 v true K⟩) ∧
    (∃ K, ∀ fuel, K < fuel →
      spif_set_peripheral_mask env v fuel w =
        .done ⟨after_attempts env 0xfffffe03 v true (K + 1) w.st,
          w.log ++ attempts 0xfffffe03 v true K⟩) ∧
    LCFG_KEY = 0xfffffe00 ∧ LCFG_PKEY = 2 ∧ LCFG_PMSK = 3 ∧
    LCFG_KEY ||| LCFG_PKEY = 0xfffffe02 ∧ LCFG_KEY ||| LCFG_PMSK = 0xfffffe03 :=
  ⟨while_not_sent_returns env hacc (LCFG_KEY ||| LCFG_PKEY) v true w,
    while_not_sent_returns env hacc (LCFG_KEY ||| LCFG_PMSK) v true w,
    rfl, rfl, rfl, by decide, by decide⟩

/-- An instance of C7: value 9, under a sender that rejects two attempts in
three. -/
theorem peripheral_key_mask_send_witness :
    EventuallyAccepts (stub 2 7 3) ∧
    (∃ K, ∀ fuel, K < fuel →
      spif_set_peripheral_key (stub 2 7 3) 9 fuel ⟨1, []⟩ =
        .done ⟨after_attempts (stub 2 7 3) 0xfffffe02 9 true (K + 1) 1,
          [] ++ attempts 0xfffffe02 9 true K⟩) ∧
    (∃ K, ∀ fuel, K < fuel →
      spif_set_peripheral_mask (stub 2 7 3) 9 fuel ⟨1, []⟩ =
        .done ⟨after_attempts (stub 2 7 3) 0xfffffe03 9 true (K + 1) 1,
          [] ++ attempts 0xfffffe03 9 true K⟩) ∧
    LCFG_KEY = 0xfffffe00 ∧ LCFG_PKEY = 2 ∧ LCFG_PMSK = 3 ∧
    LCFG_KEY ||| LCFG_PKEY = 0xfffffe02 ∧ LCFG_KEY ||| LCFG_PMSK = 0xfffffe03 :=
  ⟨stub_eventually 2 7 3,
    peripheral_key_mask_send (stub 2 7 3) 9 ⟨1, []⟩ (stub_eventually 2 7 3)⟩

/-- C8: under a sender that accepts every packet after finitely many
attempts, `spif_start_input` returns having done nothing but try to send the
packet with key `0xfffffe11 = 0xfffffe00 | 17` and the payload flag clear
until it was accepted, and `spif_stop_input` the same with key
`0xfffffe10 = 0xfffffe00 | 16`; the two packets have the same payload
argument and the same flag, and their keys differ. -/
theorem start_stop_send (env : Env σ) (w : World σ)
    (hacc : EventuallyAccepts env) :
    (∃ K, ∀ fuel, K < fuel →
      spif_start_input env fuel w =
        .done ⟨after_attempts env 0xfffffe11 0 false (K + 1) w.st,
          w.log ++ attempts 0xfffffe11 0 false K⟩) ∧
    (∃ K, ∀ fuel, K < fuel →
      spif_stop_input env fuel w =
        .done ⟨after_attempts env 0xfffffe10 0 false (K + 1) w.st,
          w.log ++ attempts 0xfffffe10 0 false K⟩) ∧
    LCFG_KEY ||| LCFG_START = 0xfffffe11 ∧ LCFG_KEY ||| LCFG_STOP = 0xfffffe10 ∧
    LCFG_KEY ||| LCFG_START ≠ LCFG_KEY ||| LCFG_STOP :=
  ⟨while_not_sent_returns env hacc (LCFG_KEY ||| LCFG_START) 0 false w,
    while_not_sent_returns env hacc (LCFG_KEY ||| LCFG_STOP) 0 false w,
    by decide, by decide, by decide⟩

/-- An instance of C8: a sender that rejects two attempts in three. -/
theorem start_stop_send_witness :
    EventuallyAccepts (stub 2 7 3) ∧
    (∃ K, ∀ fuel, K < fuel →
      spif_start_input (stub 2 7 3) fuel ⟨1, []⟩ =
        .done ⟨after_attempts (stub 2 7 3) 0xfffffe11 0 false (K + 1) 1,
          [] ++ attempts 0xfffffe11 0 false K⟩) ∧
    (∃ K, ∀ fuel, K < fuel →
      spif_stop_input (stub 2 7 3) fuel ⟨1, []⟩ =
        .done ⟨after_attempts (stub 2 7 3) 0xfffffe10 0 false (K + 1) 1,
          [] ++ attempts 0xfffffe10 0 false K⟩) ∧
    LCFG_KEY ||| LCFG_START = 0xfffffe11 ∧ LCFG_KEY ||| LCFG_STOP = 0xfffffe10 ∧
    LCFG_KEY ||| LCFG_START ≠ LCFG_KEY ||| LCFG_STOP :=
  ⟨stub_eventually 2 7 3,
    start_stop_send (stub 2 7 3) ⟨1, []⟩ (stub_eventually 2 7 3)⟩

/-- C9: under a sender that accepts every packet after finitely many
attempts, `spif_set_input_drop_wait (wait)` returns having done nothing but
try to send the packet with key `0xffffff00 | SPIF_IN_DROP_WAIT`, in which
`wait` does not occur, payload `wait` and the payload flag set until it was
accepted, and `spif_set_mapper_key (m, k)` the same with key
`0xffffff00 | (SPIF_MAPPER_KEY + m)`, the sum taken modulo `2^32`, and payload
`k`. -/
theorem drop_wait_mapper_key_send (env : Env σ) (c : SpifRegs)
    (wait m k : Nat) (w : World σ) (hacc : EventuallyAccepts env) :
    (∃ K, ∀ fuel, K < fuel →
      spif_set_input_drop_wait env c wait fuel w =
        .done ⟨after_attempts env (0xffffff00 ||| c.SPIF_IN_DROP_WAIT) wait true (K + 1) w.st,
          w.log ++ attempts (0xffffff00 ||| c.SPIF_IN_DROP_WAIT) wait true K⟩) ∧
    (∃ K, ∀ fuel, K < fuel →
      spif_set_mapper_key env c m k fuel w =
        .done ⟨after_attempts env
            (0xffffff00 ||| (c.SPIF_MAPPER_KEY + m) % 2 ^ 32) k true (K + 1) w.st,
          w.log ++ attempts (0xffffff00 ||| (c.SPIF_MAPPER_KEY + m) % 2 ^ 32) k true K⟩) :=
  ⟨while_not_sent_returns env hacc _ wait true w,
    while_not_sent_returns env hacc _ k true w⟩

/-- An instance of C9: wait 100, mapper 1 and key 9, under a sender that
rejects two attempts in three. -/
theorem drop_wait_mapper_key_send_witness :
    EventuallyAccepts (stub 2 7 3) ∧
    (∃ K, ∀ fuel, K < fuel →
      spif_set_input_drop_wait (stub 2 7 3) regs0 100 fuel ⟨1, []⟩ =
        .done ⟨after_attempts (stub 2 7 3)
            (0xffffff00 ||| regs0.SPIF_IN_DROP_WAIT) 100 true (K + 1) 1,
          [] ++ attempts (0xffffff00 ||| regs0.SPIF_IN_DROP_WAIT) 100 true K⟩) ∧
    (∃ K, ∀ fuel, K < fuel →
      spif_set_mapper_key (stub 2 7 3) regs0 1 9 fuel ⟨1, []⟩ =
        .done ⟨after_attempts (stub 2 7 3)
            (0xffffff00 ||| (regs0.SPIF_MAPPER_KEY + 1) % 2 ^ 32) 9 true (K + 1) 1,
          [] ++ attempts (0xffffff00 ||| (regs0.SPIF_MAPPER_KEY + 1) % 2 ^ 32) 9 true K⟩) :=
  ⟨stub_eventually 2 7 3,
    drop_wait_mapper_key_send (stub 2 7 3) regs0 100 1 9 ⟨1, []⟩
      (stub_eventually 2 7 3)⟩

/-- C10: under a sender that accepts every packet after finitely many
attempts, `spif_read_counter (counter)` returns having done nothing but try
to send one packet until it was accepted; the accepted sends of the call are
exactly one, with key `0xffffff00 | counter` - no base is added to the index
- and the payload flag clear. -/
theorem spif_read_counter_sends (env : Env σ) (counter : Nat) (w : World σ)
    (hacc : EventuallyAccepts env) :
    ∃ K,
      (∀ fuel, K < fuel →
        spif_read_counter env counter fuel w =
          .done ⟨after_attempts env (0xffffff00 ||| counter) 0 false (K + 1) w.st,
            w.log ++ attempts (0xffffff00 ||| counter) 0 false K⟩) ∧
      accepted_sends (attempts (0xffffff00 ||| counter) 0 false K) =
        [(0xffffff00 ||| counter, 0, false)] := by
  obtain ⟨K, hK⟩ :=
    while_not_sent_returns env hacc (RCFG_KEY ||| counter) 0 false w
  exact ⟨K, hK, accepted_sends_attempts _ 0 false K⟩

/-- An instance of C10: counter 2, under a sender that rejects two attempts
in three. -/
theorem spif_read_counter_sends_witness :
    EventuallyAccepts (stub 2 7 3) ∧
    ∃ K,
      (∀ fuel, K < fuel →
        spif_read_counter (stub 2 7 3) 2 fuel ⟨1, []⟩ =
          .done ⟨after_attempts (stub 2 7 3) (0xffffff00 ||| 2) 0 false (K + 1) 1,
            [] ++ attempts (0xffffff00 ||| 2) 0 false K⟩) ∧
      accepted_sends (attempts (0xffffff00 ||| 2) 0 false K) =
        [(0xffffff00 ||| 2, 0, false)] :=
  ⟨stub_eventually 2 7 3,
    spif_read_counter_sends (stub 2 7 3) 2 ⟨1, []⟩ (stub_eventually 2 7 3)⟩

/-! ## Lemmas on the bits of the keys -/

theorem lor_land_self (a b : Nat) : (a ||| b) &&& a = a := by
  apply Nat.eq_of_testBit_eq
  intro i
  rw [Nat.testBit_and, Nat.testBit_or]
  cases a.testBit i <;> simp

theorem testBit_ffffff00 (i : Nat) :
    (0xffffff00 : Nat).testBit i = (decide (8 ≤ i) && decide (i < 32)) := by
  have h : (0xffffff00 : Nat) = 2 ^ 8 * (2 ^ 24 - 1) := by norm_num
  rw [h, Nat.testBit_mul_pow_two, Nat.testBit_two_pow_sub_one]
  by_cases h8 : 8 ≤ i <;> by_cases h32 : i < 32 <;> simp [h8, h32] <;> omega

theorem rcfg_lor (x : Nat) (hx : x < 2 ^ 32) :
    RCFG_KEY ||| x = 0xffffff00 + x % 256 := by
  have hlow : x % 256 < 2 ^ 8 := Nat.mod_lt _ (by norm_num)
  have h : (0xffffff00 : Nat) + x % 256 = 2 ^ 8 * 0xffffff ||| x % 256 :=
    Nat.mul_add_lt_is_or hlow 0xffffff
  rw [h]
  apply Nat.eq_of_testBit_eq
  intro i
  have h256 : (256 : Nat) = 2 ^ 8 := by norm_num
  have hk : (2 ^ 8 * 0xffffff : Nat) = 0xffffff00 := by norm_num
  rw [hk, h256, Nat.testBit_or, Nat.testBit_or, Nat.testBit_mod_two_pow]
  show ((0xffffff00 : Nat).testBit i || x.testBit i) = _
  rw [testBit_ffffff00]
  by_cases h8 : 8 ≤ i
  · by_cases h32 : i < 32
    · simp [h8, h32]
    · have hxi : x.testBit i = false :=
        Nat.testBit_lt_two_pow (lt_of_lt_of_le hx
          (Nat.pow_le_pow_right (by norm_num) (by omega)))
      have : ¬ i < 8 := by omega
      simp [h32, hxi, this]
  · have : i < 8 := by omega
    simp [h8, this]

/-! ## Lemmas on programs -/

theorem Run.andThen_done {α : Type} (r : Run α) : r.andThen Run.done = r := by
  cases r <;> rfl

theorem send_all_append (env : Env σ) (fuel : Nat) (ps qs : List (Nat × Nat × Bool)) :
    ∀ w : World σ, send_all env fuel (ps ++ qs) w =
      (send_all env fuel ps w).andThen (send_all env fuel qs) := by
  induction ps with
  | nil => intro w; rfl
  | cons p ps ih =>
    intro w
    simp only [List.cons_append, send_all]
    cases while_not_sent env p.1 p.2.1 p.2.2 fuel w with
    | done w1 => simpa [Run.andThen] using ih w1
    | spinning w1 => rfl

theorem send_all_total (env : Env σ) (hacc : EventuallyAccepts env) :
    ∀ (ps : List (Nat × Nat × Bool)) (w : World σ),
      ∃ (w1 : World σ) (fuel0 : Nat) (Ks : List Nat),
        Ks.length = ps.length ∧
        (∀ fuel, fuel0 ≤ fuel → send_all env fuel ps w = .done w1) ∧
        w1.log = w.log ++ sent_log ps Ks := by
  intro ps
  induction ps with
  | nil =>
    intro w
    exact ⟨w, 0, [], rfl, fun _ _ => rfl, by simp [sent_log]⟩
  | cons p ps ih =>
    intro w
    obtain ⟨K, hK⟩ := hacc w.st p.1 p.2.1 p.2.2
    obtain ⟨w1, fuel1, Ks, hlen, hrun, hlog⟩ := ih
      ⟨after_attempts env p.1 p.2.1 p.2.2 (K + 1) w.st,
        w.log ++ attempts p.1 p.2.1 p.2.2 K⟩
    refine ⟨w1, max (K + 1) fuel1, K :: Ks, by simp [hlen], ?_, ?_⟩
    · intro fuel hfuel
      have h1 := le_max_left (K + 1) fuel1
      have h2 := le_max_right (K + 1) fuel1
      have hsend := while_not_sent_done env p.1 p.2.1 p.2.2 K fuel w hK
        (by omega)
      simp only [send_all, hsend, Run.andThen]
      exact hrun fuel (by omega)
    · rw [hlog]
      simp [sent_log]

theorem accepted_sends_sent_log :
    ∀ (ps : List (Nat × Nat × Bool)) (Ks : List Nat), Ks.length = ps.length →
      accepted_sends (sent_log ps Ks) = ps := by
  intro ps
  induction ps with
  | nil => intro Ks _; cases Ks <;> rfl
  | cons p ps ih =>
    intro Ks hlen
    cases Ks with
    | nil => simp at hlen
    | cons K Ks =>
      simp only [sent_log, accepted_sends_append, accepted_sends_attempts]
      rw [ih Ks (by simpa using hlen)]
      rfl

theorem reset_counters_loop_eq (env : Env σ) (c : SpifRegs) (fuel : Nat)
    (hN : c.SPIF_DCREGS_NUM < 2 ^ 32) :
    ∀ (d tests i : Nat) (w : World σ), i + d = c.SPIF_DCREGS_NUM → d < tests →
      reset_counters_loop env c fuel tests i w =
        send_all env fuel ((List.range' i d).map
          (fun j => (RCFG_KEY ||| add32 c.SPIF_COUNT_OUT j, 0, WITH_PAYLOAD))) w := by
  intro d
  induction d with
  | zero =>
    intro tests i w hi ht
    obtain ⟨tests, rfl⟩ :=
      Nat.exists_eq_succ_of_ne_zero (Nat.not_eq_zero_of_lt ht)
    have : ¬ i < c.SPIF_DCREGS_NUM := by omega
    simp [reset_counters_loop, this, send_all]
  | succ d ih =>
    intro tests i w hi ht
    obtain ⟨tests, rfl⟩ :=
      Nat.exists_eq_succ_of_ne_zero (Nat.not_eq_zero_of_lt ht)
    have hlt : i < c.SPIF_DCREGS_NUM := by omega
    have hnext : add32 i 1 = i + 1 := add32_of_lt (by omega)
    have hfun : reset_counters_loop env c fuel tests (i + 1) =
        send_all env fuel ((List.range' (i + 1) d).map
          (fun j => (RCFG_KEY ||| add32 c.SPIF_COUNT_OUT j, 0, WITH_PAYLOAD))) :=
      funext fun w1 => ih tests (i + 1) w1 (by omega) (by omega)
    unfold reset_counters_loop
    simp only [hlt, if_true, hnext, hfun, List.range'_succ, List.map_cons, send_all]

theorem Call.run_eq_send_all (env : Env σ) (c : SpifRegs) (fuel : Nat)
    (hN : c.SPIF_DCREGS_NUM < 2 ^ 32) (hfuel : c.SPIF_DCREGS_NUM < fuel)
    (call : Call) (w : World σ) :
    call.run env c fuel w = send_all env fuel (call.packets c) w := by
  cases call with
  | reset_counters =>
    simp only [Call.run, spif_reset_counters, Call.packets, List.range_eq_range']
    exact reset_counters_loop_eq env c fuel hN c.SPIF_DCREGS_NUM fuel 0 w
      (by omega) hfuel
  | _ =>
    simp only [Call.run, Call.packets, send_all]
    exact (Run.andThen_done _).symm

theorem run_calls_eq_send_all (env : Env σ) (c : SpifRegs) (fuel : Nat)
    (hN : c.SPIF_DCREGS_NUM < 2 ^ 32) (hfuel : c.SPIF_DCREGS_NUM < fuel) :
    ∀ (calls : List Call) (w : World σ),
      run_calls env c fuel calls w =
        send_all env fuel (calls.flatMap (Call.packets c)) w := by
  intro calls
  induction calls with
  | nil => intro w; rfl
  | cons call calls ih =>
    intro w
    have hfun : run_calls env c fuel calls =
        send_all env fuel (calls.flatMap (Call.packets c)) := funext ih
    simp only [run_calls, List.flatMap_cons, send_all_append, hfun,
      Call.run_eq_send_all env c fuel hN hfuel]

/-! ## Lemmas on the attempts of a run of any length -/

theorem while_not_sent_first (env : Env σ) (key data : Nat) (load : Bool)
    (fuel : Nat) (w : World σ) :
    ∃ ok rest,
      (while_not_sent env key data load (fuel + 1) w).world.log =
        w.log ++ Event.send key data load ok :: rest ∧
      ∀ e ∈ rest, ∃ ok1, e = Event.send key data load ok1 := by
  unfold while_not_sent
  by_cases hacc : (env.spin1_send_mc_packet w.st key data load).2 = true
  · exact ⟨true, [], by simp [hacc, Run.world], by simp⟩
  · have hrej : (env.spin1_send_mc_packet w.st key data load).2 = false := by
      simpa using hacc
    obtain ⟨evs, hlog, hall⟩ := while_not_sent_attempts env key data load fuel
      ⟨(env.spin1_send_mc_packet w.st key data load).1,
        w.log ++ [Event.send key data load false]⟩
    refine ⟨false, evs, ?_, hall⟩
    simp only [hrej]
    simpa using hlog

theorem while_not_sent_keys (env : Env σ) (key data : Nat) (load : Bool)
    (P : Nat → Prop) (hP : P key) (fuel : Nat) (w : World σ) :
    ∃ evs,
      (while_not_sent env key data load fuel w).world.log = w.log ++ evs ∧
      ∀ e ∈ evs, ∃ k d l ok, e = Event.send k d l ok ∧ P k := by
  obtain ⟨evs, hlog, hall⟩ := while_not_sent_attempts env key data load fuel w
  refine ⟨evs, hlog, ?_⟩
  intro e he
  obtain ⟨ok, hok⟩ := hall e he
  exact ⟨key, data, load, ok, hok, hP⟩

theorem reset_counters_loop_keys (env : Env σ) (c : SpifRegs) (fuel : Nat)
    (P : Nat → Prop) (hP : ∀ x, P (RCFG_KEY ||| x)) :
    ∀ (tests i : Nat) (w : World σ), ∃ evs,
      (reset_counters_loop env c fuel tests i w).world.log = w.log ++ evs ∧
      ∀ e ∈ evs, ∃ k d l ok, e = Event.send k d l ok ∧ P k := by
  intro tests
  induction tests with
  | zero =>
    intro i w
    exact ⟨[], by simp [reset_counters_loop, Run.world], by simp⟩
  | succ tests ih =>
    intro i w
    unfold reset_counters_loop
    by_cases hlt : i < c.SPIF_DCREGS_NUM
    · simp only [hlt, if_true]
      obtain ⟨evs1, hlog1, hall1⟩ := while_not_sent_keys env
        (RCFG_KEY ||| add32 c.SPIF_COUNT_OUT i) 0 WITH_PAYLOAD P (hP _) fuel w
      cases hrun : while_not_sent env (RCFG_KEY ||| add32 c.SPIF_COUNT_OUT i) 0
          WITH_PAYLOAD fuel w with
      | done w1 =>
        rw [hrun] at hlog1
        obtain ⟨evs2, hlog2, hall2⟩ := ih (add32 i 1) w1
        refine ⟨evs1 ++ evs2, ?_, ?_⟩
        · simp only [Run.andThen]
          rw [hlog2]
          simp only [Run.world] at hlog1
          rw [hlog1, List.append_assoc]
        · intro e he
          rcases List.mem_append.mp he with h | h
          · exact hall1 e h
          · exact hall2 e h
      | spinning w1 =>
        rw [hrun] at hlog1
        exact ⟨evs1, by simpa [Run.andThen] using hlog1, hall1⟩
    · exact ⟨[], by simp [hlt, Run.world], by simp⟩

theorem Call.run_keys (env : Env σ) (c : SpifRegs) (fuel : Nat)
    (P : Bool → Nat → Prop)
    (hL : ∀ x, x = 2 ∨ x = 3 ∨ x = 16 ∨ x = 17 → P true (LCFG_KEY ||| x))
    (hR : ∀ x, P false (RCFG_KEY ||| x)) (call : Call) (w : World σ) :
    ∃ evs,
      (call.run env c fuel w).world.log = w.log ++ evs ∧
      ∀ e ∈ evs, ∃ k d l ok,
        e = Event.send k d l ok ∧ P call.local_config k := by
  cases call with
  | set_peripheral_key key =>
    exact while_not_sent_keys env _ _ _ (P true) (hL 2 (by simp)) fuel w
  | set_peripheral_mask mask =>
    exact while_not_sent_keys env _ _ _ (P true) (hL 3 (by simp)) fuel w
  | start_input =>
    exact while_not_sent_keys env _ _ _ (P true) (hL 17 (by simp)) fuel w
  | stop_input =>
    exact while_not_sent_keys env _ _ _ (P true) (hL 16 (by simp)) fuel w
  | reset_counters =>
    exact reset_counters_loop_keys env c fuel (P false) hR fuel 0 w
  | _ => exact while_not_sent_keys env _ _ _ (P false) (hR _) fuel w

/-! ## Lemmas on `spif_init` and on the routes -/

theorem spif_init_log (env : Env σ) (w : World σ)
    (hne : (env.rtr_alloc w.st 3).2 ≠ 0) :
    ∃ core, (spif_init env w).1 = SUCCESS ∧
      (spif_init env w).2.log =
        w.log ++ init_calls (env.rtr_alloc w.st 3).2 core := by
  refine ⟨env.spin1_get_core_id
    (env.rtr_mc_set
      (env.rtr_mc_set (env.rtr_alloc w.st 3).1 (env.rtr_alloc w.st 3).2
        LCFG_KEY LCFG_MSK ROUTE_TO_SPIF)
      (add32 (env.rtr_alloc w.st 3).2 1) RCFG_KEY RCFG_MSK ROUTE_TO_SPIF), ?_, ?_⟩
  · simp [spif_init, call_rtr_alloc, hne]
  · simp [spif_init, call_rtr_alloc, call_rtr_mc_set, call_get_core_id, hne,
      init_calls]

theorem spif_init_log_core (env : Env σ) (w : World σ) (c : Nat)
    (hne : (env.rtr_alloc w.st 3).2 ≠ 0)
    (hc : ∀ s, env.spin1_get_core_id s = c) :
    (spif_init env w).2.log =
      w.log ++ init_calls (env.rtr_alloc w.st 3).2 c := by
  simp [spif_init, call_rtr_alloc, call_rtr_mc_set, call_get_core_id, hne, hc,
    init_calls]

theorem spif_init_log_failure (env : Env σ) (w : World σ)
    (h0 : (env.rtr_alloc w.st 3).2 = 0) :
    (spif_init env w).2.log = w.log ++ [Event.rtr_alloc 3 0] := by
  simp [spif_init, call_rtr_alloc, h0]

theorem routes_of_init_calls (entry core k : Nat) :
    routes_of (init_calls entry core) k =
      if k &&& 0xffffff00 = 0xfffffe00 then [1 <<< 5]
      else if k &&& 0xffffff00 = 0xffffff00 then [1 <<< 5]
      else if k &&& 0xffffff00 = 0xfffffd00 then [ROUTE_TO_CORE core]
      else [] := by
  simp only [init_calls, routes_of, LCFG_KEY, LCFG_MSK, RCFG_KEY, RCFG_MSK,
    RPLY_KEY, RPLY_MSK, ROUTE_TO_SPIF, shl32]
  by_cases h1 : k &&& 0xffffff00 = 0xfffffe00
  · simp [h1]
  · by_cases h2 : k &&& 0xffffff00 = 0xffffff00
    · simp [h2]
    · by_cases h3 : k &&& 0xffffff00 = 0xfffffd00
      · simp [h3]
      · simp [h1, h2, h3]

/-! ## Lemmas on the conversions between `int` and `uint` -/

theorem uint_of_int_cast (s : Int) : (uint_of_int s : Int) = s % 2 ^ 32 := by
  unfold uint_of_int
  exact Int.toNat_of_nonneg (Int.emod_nonneg s (by norm_num))

theorem uint_of_int_lt (s : Int) : uint_of_int s < 2 ^ 32 := by
  have h := uint_of_int_cast s
  have h2 : s % 2 ^ 32 < 2 ^ 32 := Int.emod_lt_of_pos s (by norm_num)
  omega

theorem int_of_uint_of_int (s : Int) (hlo : -2 ^ 31 ≤ s) (hhi : s < 2 ^ 31) :
    int_of_uint (uint_of_int s) = s := by
  have h := uint_of_int_cast s
  unfold int_of_uint
  split <;> omega

theorem mul32_add32_one (n m : Nat) : mul32 n (add32 m 1) = mul32 n (m + 1) := by
  unfold mul32 add32
  rw [Nat.mul_mod, Nat.mod_mod, ← Nat.mul_mod]

theorem mapper_offset_alias (a n m f : Nat) :
    add32 (add32 a (mul32 n m)) (n + f) = add32 (add32 a (mul32 n (m + 1))) f := by
  rw [add32_add32_mul32, add32_add32_mul32]
  congr 1
  ring

theorem mapper_offset_alias32 (a n m f : Nat) :
    add32 (add32 a (mul32 n m)) (add32 n f) =
      add32 (add32 a (mul32 n (add32 m 1))) f := by
  rw [mul32_add32_one, ← mapper_offset_alias]
  unfold add32 mul32
  omega

/-! ## The claims, continued -/

/-- C11: a signed 32-bit shift `s` reaches the `uint` parameter of
`spif_set_mapper_field_shift` as `s mod 2^32`, and every attempt of the call
to send carries exactly that word as payload: read back as a two's-complement
`int` it is `s`.  For negative `s` the word has its top bit set and, read as
signed, is not `|s|`; as an unsigned number it differs from `|s|` for every
negative `s` but `-2^31`, whose 32 bits `0x80000000` are those of its
magnitude in any representation. -/
theorem shift_payload_twos_complement (env : Env σ) (c : SpifRegs)
    (m f fuel : Nat) (w : World σ) (s : Int)
    (hlo : -2 ^ 31 ≤ s) (hhi : s < 2 ^ 31) :
    (∃ ok rest,
      (spif_set_mapper_field_shift env c m f (uint_of_int s) (fuel + 1)
          w).world.log =
        w.log ++ Event.send
          (0xffffff00 |||
            (c.SPIF_MAPPER_SHIFT + c.SPIF_MPREGS_NUM * m + f) % 2 ^ 32)
          (uint_of_int s) true ok :: rest ∧
      ∀ e ∈ rest, ∃ ok1, e = Event.send
        (0xffffff00 |||
          (c.SPIF_MAPPER_SHIFT + c.SPIF_MPREGS_NUM * m + f) % 2 ^ 32)
        (uint_of_int s) true ok1) ∧
    (uint_of_int s : Int) = s % 2 ^ 32 ∧
    uint_of_int s < 2 ^ 32 ∧
    int_of_uint (uint_of_int s) = s ∧
    (s < 0 → 2 ^ 31 ≤ uint_of_int s ∧ int_of_uint (uint_of_int s) ≠ |s|) ∧
    (s < 0 → s ≠ -2 ^ 31 → (uint_of_int s : Int) ≠ |s|) := by
  have hcast := uint_of_int_cast s
  have hback := int_of_uint_of_int s hlo hhi
  refine ⟨?_, hcast, uint_of_int_lt s, hback, ?_, ?_⟩
  · unfold spif_set_mapper_field_shift
    rw [add32_add32_mul32]
    exact while_not_sent_first env _ (uint_of_int s) true fuel w
  · intro hneg
    have habs : |s| = -s := abs_of_neg hneg
    constructor
    · omega
    · rw [hback, habs]
      omega
  · intro hneg hmin
    have habs : |s| = -s := abs_of_neg hneg
    rw [habs]
    omega

/-- An instance of C11: the shift `-3`, a left shift by three, is sent as
`0xfffffffd`. -/
theorem shift_payload_twos_complement_witness :
    (-2 ^ 31 ≤ (-3 : Int)) ∧ ((-3 : Int) < 2 ^ 31) ∧
    uint_of_int (-3) = 0xfffffffd ∧
    (∃ ok rest,
      (spif_set_mapper_field_shift (stub 2 7 3) regs0 1 2 (uint_of_int (-3))
          (4 + 1) ⟨1, []⟩).world.log =
        [] ++ Event.send
          (0xffffff00 |||
            (regs0.SPIF_MAPPER_SHIFT + regs0.SPIF_MPREGS_NUM * 1 + 2) % 2 ^ 32)
          (uint_of_int (-3)) true ok :: rest ∧
      ∀ e ∈ rest, ∃ ok1, e = Event.send
        (0xffffff00 |||
          (regs0.SPIF_MAPPER_SHIFT + regs0.SPIF_MPREGS_NUM * 1 + 2) % 2 ^ 32)
        (uint_of_int (-3)) true ok1) ∧
    (uint_of_int (-3) : Int) = (-3) % 2 ^ 32 ∧
    uint_of_int (-3) < 2 ^ 32 ∧
    int_of_uint (uint_of_int (-3)) = -3 ∧
    ((-3 : Int) < 0 →
      2 ^ 31 ≤ uint_of_int (-3) ∧ int_of_uint (uint_of_int (-3)) ≠ |(-3 : Int)|) ∧
    ((-3 : Int) < 0 → (-3 : Int) ≠ -2 ^ 31 →
      (uint_of_int (-3) : Int) ≠ |(-3 : Int)|) :=
  ⟨by decide, by decide, by decide,
    shift_payload_twos_complement (stub 2 7 3) regs0 1 2 4 ⟨1, []⟩ (-3)
      (by decide) (by decide)⟩

theorem run_calls_returns (env : Env σ) (c : SpifRegs)
    (hacc : EventuallyAccepts env) (hN : c.SPIF_DCREGS_NUM < 2 ^ 32)
    (calls : List Call) (w : World σ) :
    ∃ (w1 : World σ) (fuel0 : Nat) (Ks : List Nat),
      (∀ fuel, fuel0 ≤ fuel → run_calls env c fuel calls w = .done w1) ∧
      Ks.length = (calls.flatMap (Call.packets c)).length ∧
      w1.log = w.log ++ sent_log (calls.flatMap (Call.packets c)) Ks := by
  obtain ⟨w1, fuel1, Ks, hlen, hrun, hlog⟩ :=
    send_all_total env hacc (calls.flatMap (Call.packets c)) w
  refine ⟨w1, max fuel1 (c.SPIF_DCREGS_NUM + 1), Ks, ?_, hlen, hlog⟩
  intro fuel hfuel
  have h1 := le_max_left fuel1 (c.SPIF_DCREGS_NUM + 1)
  have h2 := le_max_right fuel1 (c.SPIF_DCREGS_NUM + 1)
  rw [run_calls_eq_send_all env c fuel hN (by omega)]
  exact hrun fuel (by omega)

theorem run_calls_single (env : Env σ) (c : SpifRegs) (fuel : Nat)
    (call : Call) (w : World σ) :
    run_calls env c fuel [call] w = call.run env c fuel w := by
  simp only [run_calls]
  exact Run.andThen_done _

/-- C12: an index beyond the block of a mapper reaches the registers of the
next mapper, and nothing reports it.  With field `SPIF_MPREGS_NUM + f`,
`spif_set_mapper_field_mask` runs exactly as for mapper `m + 1` and field `f`
- the same packet, the same attempts - whether the two sums are taken as
written or as `uint` sums, and so does `spif_set_mapper_field_shift`.  Every
call of a configuration function, whatever its arguments, makes nothing but
attempts to send, and under a sender that accepts every packet after
finitely many attempts (and a 32-bit `SPIF_DCREGS_NUM`) it returns. -/
theorem mapper_field_alias (env : Env σ) (c : SpifRegs) (m f v : Nat) :
    (∀ fuel (w : World σ),
      spif_set_mapper_field_mask env c m (c.SPIF_MPREGS_NUM + f) v fuel w =
        spif_set_mapper_field_mask env c (m + 1) f v fuel w) ∧
    (∀ fuel (w : World σ),
      spif_set_mapper_field_shift env c m (c.SPIF_MPREGS_NUM + f) v fuel w =
        spif_set_mapper_field_shift env c (m + 1) f v fuel w) ∧
    (∀ fuel (w : World σ),
      spif_set_mapper_field_mask env c m (add32 c.SPIF_MPREGS_NUM f) v fuel w =
        spif_set_mapper_field_mask env c (add32 m 1) f v fuel w) ∧
    (∀ fuel (w : World σ),
      spif_set_mapper_field_shift env c m (add32 c.SPIF_MPREGS_NUM f) v fuel w =
        spif_set_mapper_field_shift env c (add32 m 1) f v fuel w) ∧
    (∀ (call : Call) fuel (w : World σ), ∃ evs,
      (call.run env c fuel w).world.log = w.log ++ evs ∧
      ∀ e ∈ evs, ∃ key data load ok, e = Event.send key data load ok) ∧
    (EventuallyAccepts env → c.SPIF_DCREGS_NUM < 2 ^ 32 →
      ∀ (call : Call) (w : World σ), ∃ (w1 : World σ) (fuel0 : Nat),
        ∀ fuel, fuel0 ≤ fuel → call.run env c fuel w = .done w1) := by
  refine ⟨?_, ?_, ?_, ?_, ?_, ?_⟩
  · intro fuel w
    unfold spif_set_mapper_field_mask
    rw [mapper_offset_alias]
  · intro fuel w
    unfold spif_set_mapper_field_shift
    rw [mapper_offset_alias]
  · intro fuel w
    unfold spif_set_mapper_field_mask
    rw [mapper_offset_alias32]
  · intro fuel w
    unfold spif_set_mapper_field_shift
    rw [mapper_offset_alias32]
  · intro call fuel w
    obtain ⟨evs, hlog, hall⟩ := Call.run_keys env c fuel (fun _ _ => True)
      (fun _ _ => trivial) (fun _ => trivial) call w
    refine ⟨evs, hlog, ?_⟩
    intro e he
    obtain ⟨k, d, l, ok, hk, _⟩ := hall e he
    exact ⟨k, d, l, ok, hk⟩
  · intro hacc hN call w
    obtain ⟨w1, fuel0, _, hrun, _, _⟩ := run_calls_returns env c hacc hN [call] w
    refine ⟨w1, fuel0, ?_⟩
    intro fuel hfuel
    rw [← run_calls_single]
    exact hrun fuel hfuel

/-- An instance of C12: field `SPIF_MPREGS_NUM + 1` of mapper 2 is field 1
of mapper 3. -/
theorem mapper_field_alias_witness :
    EventuallyAccepts (stub 2 7 3) ∧ regs0.SPIF_DCREGS_NUM < 2 ^ 32 ∧
    (spif_set_mapper_field_mask (stub 2 7 3) regs0 2
        (regs0.SPIF_MPREGS_NUM + 1) 9 5 ⟨1, []⟩ =
      spif_set_mapper_field_mask (stub 2 7 3) regs0 (2 + 1) 1 9 5 ⟨1, []⟩) ∧
    (∃ (w1 : World Nat) (fuel0 : Nat), ∀ fuel, fuel0 ≤ fuel →
      Call.run (stub 2 7 3) regs0 fuel (.set_routing_key 1000 9) ⟨1, []⟩ =
        .done w1) :=
  ⟨stub_eventually 2 7 3, by decide,
    (mapper_field_alias (stub 2 7 3) regs0 2 1 9).1 5 ⟨1, []⟩,
    (mapper_field_alias (stub 2 7 3) regs0 2 1 9).2.2.2.2.2
      (stub_eventually 2 7 3) (by decide) (.set_routing_key 1000 9) ⟨1, []⟩⟩

/-- C13: under a sender that accepts every packet after finitely many
attempts (and a 32-bit `SPIF_DCREGS_NUM`), a sequence of configuration calls
run in program order returns, and its log is, for the packets of the first
call, then of the second, and so on, each packet in turn: the rejected
attempts to send that packet, then its accepted send.  So the accepted sends
are the packets of the calls, concatenated in call order, and no attempt at
a packet comes before the packet ahead of it was accepted.  A call has one
packet, `spif_reset_counters` has `SPIF_DCREGS_NUM`. -/
theorem calls_in_program_order (env : Env σ) (c : SpifRegs)
    (calls : List Call) (w : World σ)
    (hacc : EventuallyAccepts env) (hN : c.SPIF_DCREGS_NUM < 2 ^ 32) :
    ∃ (w1 : World σ) (fuel0 : Nat) (Ks : List Nat),
      (∀ fuel, fuel0 ≤ fuel → run_calls env c fuel calls w = .done w1) ∧
      Ks.length = (calls.flatMap (Call.packets c)).length ∧
      w1.log = w.log ++ sent_log (calls.flatMap (Call.packets c)) Ks ∧
      accepted_sends (sent_log (calls.flatMap (Call.packets c)) Ks) =
        calls.flatMap (Call.packets c) ∧
      ∀ call ∈ calls, (call.packets c).length =
        if call = Call.reset_counters then c.SPIF_DCREGS_NUM else 1 := by
  obtain ⟨w1, fuel0, Ks, hrun, hlen, hlog⟩ :=
    run_calls_returns env c hacc hN calls w
  refine ⟨w1, fuel0, Ks, hrun, hlen, hlog,
    accepted_sends_sent_log _ Ks hlen, ?_⟩
  intro call _
  cases call <;> simp [Call.packets]

/-- An instance of C13: a routing key, the reset of three counters and the
start of the input, under a sender that rejects two attempts in three. -/
theorem calls_in_program_order_witness :
    EventuallyAccepts (stub 2 7 3) ∧ regs0.SPIF_DCREGS_NUM < 2 ^ 32 ∧
    ∃ (w1 : World Nat) (fuel0 : Nat) (Ks : List Nat),
      (∀ fuel, fuel0 ≤ fuel →
        run_calls (stub 2 7 3) regs0 fuel
          [.set_routing_key 1 9, .reset_counters, .start_input] ⟨1, []⟩ =
            .done w1) ∧
      Ks.length =
        ([Call.set_routing_key 1 9, .reset_counters, .start_input].flatMap
          (Call.packets regs0)).length ∧
      w1.log = [] ++ sent_log
        ([Call.set_routing_key 1 9, .reset_counters, .start_input].flatMap
          (Call.packets regs0)) Ks ∧
      accepted_sends (sent_log
        ([Call.set_routing_key 1 9, .reset_counters, .start_input].flatMap
          (Call.packets regs0)) Ks) =
        [Call.set_routing_key 1 9, .reset_counters, .start_input].flatMap
          (Call.packets regs0) ∧
      ∀ call ∈ [Call.set_routing_key 1 9, .reset_counters, .start_input],
        (call.packets regs0).length =
          if call = Call.reset_counters then regs0.SPIF_DCREGS_NUM else 1 :=
  ⟨stub_eventually 2 7 3, by decide,
    calls_in_program_order (stub 2 7 3) regs0
      [.set_routing_key 1 9, .reset_counters, .start_input] ⟨1, []⟩
      (stub_eventually 2 7 3) (by decide)⟩

/-- C14: the triples `(key, payload, payload flag)` that a configuration
call sends depend on nothing but the function, its arguments and the
constants of `spif.h`.  There is one list of triples that the call sends -
each after the attempts the sender rejects - in every run-time, whatever its
state and whatever was called before, provided the sender accepts every
packet after finitely many attempts; a call made twice in a row sends the
list twice.  (`SPIF_DCREGS_NUM` is a 32-bit constant.) -/
theorem encoder_pure (c : SpifRegs) (call : Call)
    (hN : c.SPIF_DCREGS_NUM < 2 ^ 32) :
    ∃ ps : List (Nat × Nat × Bool),
      (∀ (τ : Type) (env : Env τ) (w : World τ), EventuallyAccepts env →
        ∃ (w1 : World τ) (fuel0 : Nat) (Ks : List Nat),
          (∀ fuel, fuel0 ≤ fuel → call.run env c fuel w = .done w1) ∧
          Ks.length = ps.length ∧
          w1.log = w.log ++ sent_log ps Ks ∧
          accepted_sends (sent_log ps Ks) = ps) ∧
      (∀ (τ : Type) (env : Env τ) (w : World τ), EventuallyAccepts env →
        ∃ (w1 : World τ) (fuel0 : Nat) (Ks : List Nat),
          (∀ fuel, fuel0 ≤ fuel →
            run_calls env c fuel [call, call] w = .done w1) ∧
          Ks.length = (ps ++ ps).length ∧
          w1.log = w.log ++ sent_log (ps ++ ps) Ks ∧
          accepted_sends (sent_log (ps ++ ps) Ks) = ps ++ ps) := by
  refine ⟨call.packets c, ?_, ?_⟩
  · intro τ env w hacc
    obtain ⟨w1, fuel0, Ks, hrun, hlen, hlog⟩ :=
      run_calls_returns env c hacc hN [call] w
    simp only [List.flatMap_cons, List.flatMap_nil, List.append_nil] at hlen hlog
    refine ⟨w1, fuel0, Ks, ?_, hlen, hlog, accepted_sends_sent_log _ Ks hlen⟩
    intro fuel hfuel
    rw [← run_calls_single]
    exact hrun fuel hfuel
  · intro τ env w hacc
    obtain ⟨w1, fuel0, Ks, hrun, hlen, hlog⟩ :=
      run_calls_returns env c hacc hN [call, call] w
    simp only [List.flatMap_cons, List.flatMap_nil, List.append_nil] at hlen hlog
    exact ⟨w1, fuel0, Ks, hrun, hlen, hlog, accepted_sends_sent_log _ Ks hlen⟩

/-- An instance of C14: `spif_set_mapper_key (1, 9)` from two different
states of a sender. -/
theorem encoder_pure_witness :
    regs0.SPIF_DCREGS_NUM < 2 ^ 32 ∧
    ∃ ps : List (Nat × Nat × Bool),
      (∀ (τ : Type) (env : Env τ) (w : World τ), EventuallyAccepts env →
        ∃ (w1 : World τ) (fuel0 : Nat) (Ks : List Nat),
          (∀ fuel, fuel0 ≤ fuel →
            Call.run env regs0 fuel (.set_mapper_key 1 9) w = .done w1) ∧
          Ks.length = ps.length ∧
          w1.log = w.log ++ sent_log ps Ks ∧
          accepted_sends (sent_log ps Ks) = ps) ∧
      (∀ (τ : Type) (env : Env τ) (w : World τ), EventuallyAccepts env →
        ∃ (w1 : World τ) (fuel0 : Nat) (Ks : List Nat),
          (∀ fuel, fuel0 ≤ fuel →
            run_calls env regs0 fuel [.set_mapper_key 1 9, .set_mapper_key 1 9]
              w = .done w1) ∧
          Ks.length = (ps ++ ps).length ∧
          w1.log = w.log ++ sent_log (ps ++ ps) Ks ∧
          accepted_sends (sent_log (ps ++ ps) Ks) = ps ++ ps) :=
  ⟨by decide, encoder_pure regs0 (.set_mapper_key 1 9) (by decide)⟩

theorem lcfg_code_mask (x : Nat) (hx : x = 2 ∨ x = 3 ∨ x = 16 ∨ x = 17) :
    (LCFG_KEY ||| x) &&& 0xffffff00 = 0xfffffe00 := by
  rcases hx with h | h | h | h <;> subst h <;> decide

theorem rcfg_mask (x : Nat) : (RCFG_KEY ||| x) &&& 0xffffff00 = 0xffffff00 :=
  lor_land_self 0xffffff00 x

theorem init_succeeds_iff (env : Env σ) (w : World σ) :
    (spif_init env w).1 = SUCCESS ↔ (env.rtr_alloc w.st 3).2 ≠ 0 := by
  by_cases h : (env.rtr_alloc w.st 3).2 = 0
  · simp [spif_init, call_rtr_alloc, h]
  · simp [spif_init, call_rtr_alloc, h]

/-- C15: whatever its arguments and whatever the constants of `spif.h`, every
call that a configuration function makes, in a run of any length under any
sender, is an attempt to send a packet whose key `k` has
`(k & 0xffffff00) = 0xfffffe00` when the function builds the key from
`LCFG_KEY` (codes 2, 3, 16, 17) and `(k & 0xffffff00) = 0xffffff00` when it
builds it from `RCFG_KEY`.  So `k` matches the local or the remote
configuration entry and not the reply entry, and in the table that any
successful `spif_init` wrote exactly one entry matches `k`, with route
`1 << 5`. -/
theorem config_keys_routed (env : Env σ) (c : SpifRegs) (call : Call)
    (fuel : Nat) (w : World σ) :
    ∃ evs,
      (call.run env c fuel w).world.log = w.log ++ evs ∧
      ∀ e ∈ evs, ∃ key data load ok, e = Event.send key data load ok ∧
        key &&& 0xffffff00 =
          (if call.local_config = true then 0xfffffe00 else 0xffffff00) ∧
        (key &&& LCFG_MSK = LCFG_KEY ∨ key &&& RCFG_MSK = RCFG_KEY) ∧
        key &&& RPLY_MSK ≠ RPLY_KEY ∧
        ∀ (τ : Type) (env0 : Env τ) (w0 : World τ),
          (spif_init env0 w0).1 = SUCCESS →
          ∃ inst, (spif_init env0 w0).2.log = w0.log ++ inst ∧
            routes_of inst key = [1 <<< 5] := by
  obtain ⟨evs, hlog, hall⟩ := Call.run_keys env c fuel
    (fun loc k => k &&& 0xffffff00 = (if loc = true then 0xfffffe00 else 0xffffff00))
    (fun x hx => by simpa using lcfg_code_mask x hx)
    (fun x => by simpa using rcfg_mask x) call w
  refine ⟨evs, hlog, ?_⟩
  intro e he
  obtain ⟨k, d, l, ok, hk, hmask⟩ := hall e he
  refine ⟨k, d, l, ok, hk, hmask, ?_, ?_, ?_⟩
  · cases hloc : call.local_config
    · right
      simpa [hloc, RCFG_MSK, RCFG_KEY] using hmask
    · left
      simpa [hloc, LCFG_MSK, LCFG_KEY] using hmask
  · cases hloc : call.local_config <;>
      simp [hloc, RPLY_MSK, RPLY_KEY] at hmask ⊢ <;> simp [hmask]
  · intro τ env0 w0 hinit
    have hne := (init_succeeds_iff env0 w0).mp hinit
    obtain ⟨core, _, hinst⟩ := spif_init_log env0 w0 hne
    refine ⟨_, hinst, ?_⟩
    rw [routes_of_init_calls]
    cases hloc : call.local_config <;> simp [hloc] at hmask <;> simp [hmask]

/-- An instance of C15: the table that `spif_init` wrote with its free block
at slot 7, on core 3. -/
theorem config_keys_routed_witness :
    (spif_init (stub 2 7 3) ⟨0, []⟩).1 = SUCCESS ∧
    ∃ evs,
      (Call.run (stub 2 7 3) regs0 5 (.set_routing_key 1000 9)
          ⟨1, []⟩).world.log = [] ++ evs ∧
      ∀ e ∈ evs, ∃ key data load ok, e = Event.send key data load ok ∧
        key &&& 0xffffff00 =
          (if Call.local_config (.set_routing_key 1000 9) = true
            then 0xfffffe00 else 0xffffff00) ∧
        (key &&& LCFG_MSK = LCFG_KEY ∨ key &&& RCFG_MSK = RCFG_KEY) ∧
        key &&& RPLY_MSK ≠ RPLY_KEY ∧
        ∀ (τ : Type) (env0 : Env τ) (w0 : World τ),
          (spif_init env0 w0).1 = SUCCESS →
          ∃ inst, (spif_init env0 w0).2.log = w0.log ++ inst ∧
            routes_of inst key = [1 <<< 5] :=
  ⟨rfl, config_keys_routed (stub 2 7 3) regs0 (.set_routing_key 1000 9) 5
    ⟨1, []⟩⟩

theorem per_class_apart (k x : Nat) (hx : x &&& 0xffff0000 = 0xffff0000)
    (hper : k &&& 0xffff0000 = 0xfffe0000) : k &&& 0xffffff00 ≠ x := by
  intro h
  have h1 : (k &&& 0xffffff00) &&& 0xffff0000 = k &&& 0xffff0000 := by
    rw [Nat.land_assoc]
    rfl
  rw [h, hx, hper] at h1
  exact absurd h1 (by decide)

/-- C16: for every key `k`, at most one of the four classes
`(0xfffe0000, 0xffff0000)`, `(0xfffffe00, 0xffffff00)`,
`(0xffffff00, 0xffffff00)`, `(0xfffffd00, 0xffffff00)` has
`(k & mask) = key`; the key of each class matches its own mask; and in the
table that `spif_init` wrote, whether it found a free block or not, at most
one entry matches `k`. -/
theorem packet_classes_exclusive (k : Nat) :
    (packet_classes.filter (fun p => decide (k &&& p.2 = p.1))).length ≤ 1 ∧
    (∀ p ∈ packet_classes, p.1 &&& p.2 = p.1) ∧
    packet_classes =
      [(0xfffe0000, 0xffff0000), (0xfffffe00, 0xffffff00),
       (0xffffff00, 0xffffff00), (0xfffffd00, 0xffffff00)] ∧
    ∀ (τ : Type) (env : Env τ) (w : World τ),
      ∃ inst, (spif_init env w).2.log = w.log ++ inst ∧
        (routes_of inst k).length ≤ 1 := by
  refine ⟨?_, ?_, rfl, ?_⟩
  · simp only [packet_classes, PER_KEY, PER_MSK, LCFG_KEY, LCFG_MSK, RCFG_KEY,
      RCFG_MSK, RPLY_KEY, RPLY_MSK]
    by_cases hper : k &&& 0xffff0000 = 0xfffe0000
    · have h1 := per_class_apart k 0xfffffe00 (by decide) hper
      have h2 := per_class_apart k 0xffffff00 (by decide) hper
      have h3 := per_class_apart k 0xfffffd00 (by decide) hper
      simp [List.filter, hper, h1, h2, h3]
    · by_cases h1 : k &&& 0xffffff00 = 0xfffffe00
      · simp [List.filter, hper, h1]
      · by_cases h2 : k &&& 0xffffff00 = 0xffffff00
        · simp [List.filter, hper, h2]
        · by_cases h3 : k &&& 0xffffff00 = 0xfffffd00
          · simp [List.filter, hper, h3]
          · simp [List.filter, hper, h1, h2, h3]
  · intro p hp
    simp only [packet_classes, List.mem_cons, List.mem_singleton,
      List.mem_nil_iff, or_false] at hp
    rcases hp with h | h | h | h <;> subst h <;> decide
  · intro τ env w
    by_cases h0 : (env.rtr_alloc w.st 3).2 = 0
    · exact ⟨_, spif_init_log_failure env w h0, by simp [routes_of]⟩
    · obtain ⟨core, _, hinst⟩ := spif_init_log env w h0
      refine ⟨_, hinst, ?_⟩
      rw [routes_of_init_calls]
      split
      · simp
      · split
        · simp
        · split <;> simp

theorem add32_lt (a b : Nat) : add32 a b < 2 ^ 32 :=
  Nat.mod_lt _ (by norm_num)

theorem rcfg_lor_congr (x y : Nat) (hx : x < 2 ^ 32) (hy : y < 2 ^ 32)
    (h : x % 256 = y % 256) : RCFG_KEY ||| x = RCFG_KEY ||| y := by
  rw [rcfg_lor x hx, rcfg_lor y hy, h]

theorem block_index_unique (n m f m2 f2 : Nat) (hf : f < n) (hf2 : f2 < n)
    (h : n * m + f = n * m2 + f2) : m = m2 ∧ f = f2 := by
  have hn : 0 < n := by omega
  have hm : m = m2 := by
    have h1 : (n * m + f) / n = m := by
      rw [Nat.mul_add_div hn, Nat.div_eq_of_lt hf, Nat.add_zero]
    have h2 : (n * m2 + f2) / n = m2 := by
      rw [Nat.mul_add_div hn, Nat.div_eq_of_lt hf2, Nat.add_zero]
    rw [← h1, ← h2, h]
  subst hm
  exact ⟨rfl, by omega⟩

theorem mapper_key_injective (a n m f m2 f2 : Nat) (hf : f < n) (hf2 : f2 < n)
    (hlt : a + n * m + f < 256) (hlt2 : a + n * m2 + f2 < 256)
    (hne : (m, f) ≠ (m2, f2)) :
    0xffffff00 ||| (a + n * m + f) % 2 ^ 32 ≠
      0xffffff00 ||| (a + n * m2 + f2) % 2 ^ 32 := by
  intro h
  have e1 : (a + n * m + f) % 2 ^ 32 = a + n * m + f :=
    Nat.mod_eq_of_lt (by omega)
  have e2 : (a + n * m2 + f2) % 2 ^ 32 = a + n * m2 + f2 :=
    Nat.mod_eq_of_lt (by omega)
  rw [e1, e2] at h
  have k1 := rcfg_lor (a + n * m + f) (by omega)
  have k2 := rcfg_lor (a + n * m2 + f2) (by omega)
  simp only [RCFG_KEY] at k1 k2
  rw [k1, k2, Nat.mod_eq_of_lt hlt, Nat.mod_eq_of_lt hlt2] at h
  have hsum : n * m + f = n * m2 + f2 := by omega
  obtain ⟨hm, hf⟩ := block_index_unique n m f m2 f2 hf hf2 hsum
  exact hne (by rw [hm, hf])

/-- C17: for a 32-bit offset `x`, `RCFG_KEY | x = 0xffffff00 + (x mod 256)`.
So `spif_set_routing_key (n + 256, v)` runs exactly as
`spif_set_routing_key (n, v)` - the same packet, the same attempts - whether
`n + 256` is taken as written or as a `uint` sum, and for a 32-bit `counter`
`spif_read_counter (counter + 256)`, the sum being a `uint` sum, runs exactly
as `spif_read_counter (counter)`. -/
theorem rcfg_key_low_byte (env : Env σ) (c : SpifRegs) (x n v counter : Nat)
    (hx : x < 2 ^ 32) (hcounter : counter < 2 ^ 32) :
    RCFG_KEY ||| x = 0xffffff00 + x % 256 ∧
    (∀ fuel (w : World σ),
      spif_set_routing_key env c (n + 256) v fuel w =
        spif_set_routing_key env c n v fuel w) ∧
    (∀ fuel (w : World σ),
      spif_set_routing_key env c ((n + 256) % 2 ^ 32) v fuel w =
        spif_set_routing_key env c n v fuel w) ∧
    (∀ fuel (w : World σ),
      spif_read_counter env ((counter + 256) % 2 ^ 32) fuel w =
        spif_read_counter env counter fuel w) := by
  refine ⟨rcfg_lor x hx, ?_, ?_, ?_⟩
  · intro fuel w
    unfold spif_set_routing_key
    rw [rcfg_lor_congr (add32 c.SPIF_ROUTER_KEY (n + 256))
      (add32 c.SPIF_ROUTER_KEY n) (add32_lt _ _) (add32_lt _ _)
      (by unfold add32; omega)]
  · intro fuel w
    unfold spif_set_routing_key
    rw [rcfg_lor_congr (add32 c.SPIF_ROUTER_KEY ((n + 256) % 2 ^ 32))
      (add32 c.SPIF_ROUTER_KEY n) (add32_lt _ _) (add32_lt _ _)
      (by unfold add32; omega)]
  · intro fuel w
    unfold spif_read_counter
    rw [rcfg_lor_congr ((counter + 256) % 2 ^ 32) counter
      (Nat.mod_lt _ (by norm_num)) hcounter (by omega)]

/-- An instance of C17: offset `0x12345`, slots 1 and 257, counters 2 and
258. -/
theorem rcfg_key_low_byte_witness :
    (0x12345 : Nat) < 2 ^ 32 ∧ (2 : Nat) < 2 ^ 32 ∧
    RCFG_KEY ||| 0x12345 = 0xffffff00 + 0x12345 % 256 ∧
    spif_set_routing_key (stub 2 7 3) regs0 (1 + 256) 9 5 ⟨1, []⟩ =
      spif_set_routing_key (stub 2 7 3) regs0 1 9 5 ⟨1, []⟩ ∧
    spif_read_counter (stub 2 7 3) ((2 + 256) % 2 ^ 32) 5 ⟨1, []⟩ =
      spif_read_counter (stub 2 7 3) 2 5 ⟨1, []⟩ :=
  ⟨by decide, by decide,
    (rcfg_key_low_byte (stub 2 7 3) regs0 0x12345 1 9 2 (by decide)
      (by decide)).1,
    (rcfg_key_low_byte (stub 2 7 3) regs0 0x12345 1 9 2 (by decide)
      (by decide)).2.1 5 ⟨1, []⟩,
    (rcfg_key_low_byte (stub 2 7 3) regs0 0x12345 1 9 2 (by decide)
      (by decide)).2.2.2 5 ⟨1, []⟩⟩

/-- C18: for fields `f`, `f2` below `SPIF_MPREGS_NUM` and two different
pairs `(m, f)`, `(m2, f2)`: when `SPIF_MAPPER_MASK + SPIF_MPREGS_NUM * m + f`
and the same sum for `(m2, f2)` are below 256, the two calls of
`spif_set_mapper_field_mask` send with different keys - every run of the
first that makes an attempt makes all its attempts with one key, every run
of the second with another.  The same for `spif_set_mapper_field_shift`
when the sums with `SPIF_MAPPER_SHIFT` are below 256. -/
theorem mapper_field_injective (env : Env σ) (c : SpifRegs)
    (m f m2 f2 v : Nat)
    (hf : f < c.SPIF_MPREGS_NUM) (hf2 : f2 < c.SPIF_MPREGS_NUM)
    (hne : (m, f) ≠ (m2, f2)) :
    (c.SPIF_MAPPER_MASK + c.SPIF_MPREGS_NUM * m + f < 256 →
      c.SPIF_MAPPER_MASK + c.SPIF_MPREGS_NUM * m2 + f2 < 256 →
      ∃ key key2, key ≠ key2 ∧
        (∀ fuel (w : World σ), ∃ ok rest,
          (spif_set_mapper_field_mask env c m f v (fuel + 1) w).world.log =
            w.log ++ Event.send key v true ok :: rest ∧
          ∀ e ∈ rest, ∃ ok1, e = Event.send key v true ok1) ∧
        (∀ fuel (w : World σ), ∃ ok rest,
          (spif_set_mapper_field_mask env c m2 f2 v (fuel + 1) w).world.log =
            w.log ++ Event.send key2 v true ok :: rest ∧
          ∀ e ∈ rest, ∃ ok1, e = Event.send key2 v true ok1)) ∧
    (c.SPIF_MAPPER_SHIFT + c.SPIF_MPREGS_NUM * m + f < 256 →
      c.SPIF_MAPPER_SHIFT + c.SPIF_MPREGS_NUM * m2 + f2 < 256 →
      ∃ key key2, key ≠ key2 ∧
        (∀ fuel (w : World σ), ∃ ok rest,
          (spif_set_mapper_field_shift env c m f v (fuel + 1) w).world.log =
            w.log ++ Event.send key v true ok :: rest ∧
          ∀ e ∈ rest, ∃ ok1, e = Event.send key v true ok1) ∧
        (∀ fuel (w : World σ), ∃ ok rest,
          (spif_set_mapper_field_shift env c m2 f2 v (fuel + 1) w).world.log =
            w.log ++ Event.send key2 v true ok :: rest ∧
          ∀ e ∈ rest, ∃ ok1, e = Event.send key2 v true ok1)) := by
  constructor
  · intro hlt hlt2
    refine ⟨0xffffff00 ||| (c.SPIF_MAPPER_MASK + c.SPIF_MPREGS_NUM * m + f) % 2 ^ 32,
      0xffffff00 ||| (c.SPIF_MAPPER_MASK + c.SPIF_MPREGS_NUM * m2 + f2) % 2 ^ 32,
      mapper_key_injective _ _ m f m2 f2 hf hf2 hlt hlt2 hne, ?_, ?_⟩
    · intro fuel w
      unfold spif_set_mapper_field_mask
      rw [add32_add32_mul32]
      exact while_not_sent_first env _ v true fuel w
    · intro fuel w
      unfold spif_set_mapper_field_mask
      rw [add32_add32_mul32]
      exact while_not_sent_first env _ v true fuel w
  · intro hlt hlt2
    refine ⟨0xffffff00 ||| (c.SPIF_MAPPER_SHIFT + c.SPIF_MPREGS_NUM * m + f) % 2 ^ 32,
      0xffffff00 ||| (c.SPIF_MAPPER_SHIFT + c.SPIF_MPREGS_NUM * m2 + f2) % 2 ^ 32,
      mapper_key_injective _ _ m f m2 f2 hf hf2 hlt hlt2 hne, ?_, ?_⟩
    · intro fuel w
      unfold spif_set_mapper_field_shift
      rw [add32_add32_mul32]
      exact while_not_sent_first env _ v true fuel w
    · intro fuel w
      unfold spif_set_mapper_field_shift
      rw [add32_add32_mul32]
      exact while_not_sent_first env _ v true fuel w

/-- An instance of C18: field 2 of mapper 1 and field 1 of mapper 2, with
four registers for each mapper. -/
theorem mapper_field_injective_witness :
    (2 < regs0.SPIF_MPREGS_NUM) ∧ (1 < regs0.SPIF_MPREGS_NUM) ∧
    ((1, 2) ≠ ((2, 1) : Nat × Nat)) ∧
    regs0.SPIF_MAPPER_MASK + regs0.SPIF_MPREGS_NUM * 1 + 2 < 256 ∧
    regs0.SPIF_MAPPER_MASK + regs0.SPIF_MPREGS_NUM * 2 + 1 < 256 ∧
    (∃ key key2, key ≠ key2 ∧
      (∀ fuel (w : World Nat), ∃ ok rest,
        (spif_set_mapper_field_mask (stub 2 7 3) regs0 1 2 9 (fuel + 1)
            w).world.log =
          w.log ++ Event.send key 9 true ok :: rest ∧
        ∀ e ∈ rest, ∃ ok1, e = Event.send key 9 true ok1) ∧
      (∀ fuel (w : World Nat), ∃ ok rest,
        (spif_set_mapper_field_mask (stub 2 7 3) regs0 2 1 9 (fuel + 1)
            w).world.log =
          w.log ++ Event.send key2 9 true ok :: rest ∧
        ∀ e ∈ rest, ∃ ok1, e = Event.send key2 9 true ok1)) ∧
    regs0.SPIF_MAPPER_SHIFT + regs0.SPIF_MPREGS_NUM * 1 + 2 < 256 ∧
    regs0.SPIF_MAPPER_SHIFT + regs0.SPIF_MPREGS_NUM * 2 + 1 < 256 ∧
    ∃ key key2, key ≠ key2 ∧
      (∀ fuel (w : World Nat), ∃ ok rest,
        (spif_set_mapper_field_shift (stub 2 7 3) regs0 1 2 9 (fuel + 1)
            w).world.log =
          w.log ++ Event.send key 9 true ok :: rest ∧
        ∀ e ∈ rest, ∃ ok1, e = Event.send key 9 true ok1) ∧
      (∀ fuel (w : World Nat), ∃ ok rest,
        (spif_set_mapper_field_shift (stub 2 7 3) regs0 2 1 9 (fuel + 1)
            w).world.log =
          w.log ++ Event.send key2 9 true ok :: rest ∧
        ∀ e ∈ rest, ∃ ok1, e = Event.send key2 9 true ok1) :=
  ⟨by decide, by decide, by decide, by decide, by decide,
    (mapper_field_injective (stub 2 7 3) regs0 1 2 2 1 9 (by decide)
      (by decide) (by decide)).1 (by decide) (by decide),
    by decide, by decide,
    (mapper_field_injective (stub 2 7 3) regs0 1 2 2 1 9 (by decide)
      (by decide) (by decide)).2 (by decide) (by decide)⟩

theorem route_to_core_eq (c : Nat) (hc : c ≤ 24) : ROUTE_TO_CORE c = 2 ^ (c + 6) := by
  unfold ROUTE_TO_CORE shl32
  rw [add32_of_lt (by omega), Nat.one_shiftLeft]
  exact Nat.mod_eq_of_lt
    (Nat.pow_lt_pow_right (by decide) (by omega))

/-- C19: for a core identifier `c ≤ 24`, and so for the eighteen cores
`c < 18` of a chip, `ROUTE_TO_CORE (c)` is `1 << (c + 6)` and fits a signed
32-bit word; its only set bit is bit `c + 6`; it has no bit in common with
`ROUTE_TO_SPIF = 1 << 5` nor with any of the link bits 0 to 5; two different
core identifiers have different routes; and it is the route of the reply
entry that a successful `spif_init` writes on core `c`, the only entry that
matches the reply key. -/
theorem reply_route_one_bit (c : Nat) (hc : c ≤ 24) :
    ROUTE_TO_CORE c = 1 <<< (c + 6) ∧
    ROUTE_TO_CORE c < 2 ^ 31 ∧
    (∀ i, (ROUTE_TO_CORE c).testBit i = decide (i = c + 6)) ∧
    ROUTE_TO_SPIF = 1 <<< 5 ∧
    ROUTE_TO_CORE c &&& ROUTE_TO_SPIF = 0 ∧
    (∀ i, i ≤ 5 → ROUTE_TO_CORE c &&& (1 <<< i) = 0) ∧
    (∀ c2, c2 ≤ 24 → c2 ≠ c → ROUTE_TO_CORE c2 ≠ ROUTE_TO_CORE c) ∧
    (∀ (τ : Type) (env : Env τ) (w : World τ),
      (env.rtr_alloc w.st 3).2 ≠ 0 → (∀ s, env.spin1_get_core_id s = c) →
      ∃ inst, (spif_init env w).2.log = w.log ++ inst ∧
        Event.rtr_mc_set (add32 (env.rtr_alloc w.st 3).2 2) RPLY_KEY RPLY_MSK
          (ROUTE_TO_CORE c) ∈ inst ∧
        routes_of inst RPLY_KEY = [ROUTE_TO_CORE c]) := by
  have heq := route_to_core_eq c hc
  have hbit : ∀ i, (ROUTE_TO_CORE c).testBit i = decide (i = c + 6) := by
    intro i
    rw [heq, Nat.testBit_two_pow]
    by_cases h : i = c + 6
    · simp [h]
    · have h2 : ¬ c + 6 = i := fun e => h e.symm
      simp [h, h2]
  have hlink : ∀ i, i ≤ 5 → ROUTE_TO_CORE c &&& (1 <<< i) = 0 := by
    intro i hi
    rw [Nat.one_shiftLeft, Nat.and_two_pow, hbit]
    have : ¬ i = c + 6 := by omega
    simp [this]
  refine ⟨?_, ?_, hbit, by decide, ?_, hlink, ?_, ?_⟩
  · rw [heq, Nat.one_shiftLeft]
  · rw [heq]
    exact Nat.pow_lt_pow_right (by decide) (by omega)
  · have h5 : ROUTE_TO_SPIF = 1 <<< 5 := by decide
    rw [h5]
    exact hlink 5 (le_refl 5)
  · intro c2 hc2 hne h
    rw [heq, route_to_core_eq c2 hc2] at h
    have := Nat.pow_right_injective (le_refl 2) h
    omega
  · intro τ env w halloc hcore
    refine ⟨_, spif_init_log_core env w c halloc hcore, ?_, ?_⟩
    · simp [init_calls]
    · have h : RPLY_KEY &&& 0xffffff00 = 0xfffffd00 := by decide
      rw [routes_of_init_calls, if_neg (by rw [h]; decide),
        if_neg (by rw [h]; decide), if_pos h]

/-- An instance of C19: core 17, the last core of a chip, with the free block
at slot 7. -/
theorem reply_route_one_bit_witness :
    17 ≤ 24 ∧
    ROUTE_TO_CORE 17 = 1 <<< (17 + 6) ∧
    ROUTE_TO_CORE 17 &&& ROUTE_TO_SPIF = 0 ∧
    ROUTE_TO_CORE 3 ≠ ROUTE_TO_CORE 17 ∧
    ∃ inst, (spif_init (stub 2 7 17) ⟨0, []⟩).2.log = [] ++ inst ∧
      Event.rtr_mc_set (add32 ((stub 2 7 17).rtr_alloc 0 3).2 2) RPLY_KEY
        RPLY_MSK (ROUTE_TO_CORE 17) ∈ inst ∧
      routes_of inst RPLY_KEY = [ROUTE_TO_CORE 17] :=
  ⟨by decide,
    (reply_route_one_bit 17 (by decide)).1,
    (reply_route_one_bit 17 (by decide)).2.2.2.2.1,
    (reply_route_one_bit 17 (by decide)).2.2.2.2.2.2.1 3 (by decide) (by decide),
    (reply_route_one_bit 17 (by decide)).2.2.2.2.2.2.2 Nat (stub 2 7 17) ⟨0, []⟩
      (by decide) (fun _ => rfl)⟩

end Spif
